import Mathlib

/-!
# Verification of the type-expression grammar engine (`src/parser/src/types/type_references.rs`)

This file is a shallow embedding, in Lean 4, of the type-reference parser and
printer of the `ezno` parser crate.  The Rust source is translated function by
function; token streams become `List Tok`, the mutable `TokenReader` becomes
explicit list passing, Rust `?`-propagation becomes `Except`, Rust `panic!` /
`unwrap()` on `None` / `unreachable!()` become the distinguished failure value
`PFail.crash`, and recursion is made structural with a fuel parameter (fuel
exhaustion is the distinguished value `PFail.fuelOut`, never conflated with a
parse error).

External collaborators that live outside the given source file (the lexer, the
`TokenReader` combinators' error values, `token_as_identifier`, the decorator /
binding-pattern / interface-member parsers, `parse_bracketed`,
`to_string_bracketed`, numeric literal parsing and `Span::union`) are modelled
from the specification; each such definition carries a doc comment starting
with `Modelled from the spec:`.
-/

set_option maxRecDepth 10000
set_option maxHeartbeats 3200000

/-- Modelled from the spec: a span is `(start offset, end offset, source id)`
(the `Span` type comes from the external `source-map` crate). -/
structure Span where
  start : Nat
  stop : Nat
  sourceId : Nat
  deriving DecidableEq, Repr

/-- Modelled from the spec: `union(a, b)` returns the smallest span covering
both, independent of argument order. -/
def Span.union (a b : Span) : Span :=
  ⟨min a.start b.start, max a.stop b.stop, a.sourceId⟩

/-- Keywords recognised by the type-reference grammar (subset of `TSXKeyword`
actually inspected by the source file). -/
inductive TSXKeyword where
  | True | False | Readonly | KeyOf | New | Extends | Is | Infer
  deriving DecidableEq, Repr

/-- The token kinds inspected by `type_references.rs` (subset of `TSXToken`). -/
inductive TSXToken where
  | Keyword (k : TSXKeyword)
  | NumberLiteral (raw : String)
  | SingleQuotedStringLiteral (s : String)
  | DoubleQuotedStringLiteral (s : String)
  | At
  | OpenParentheses | CloseParentheses
  | OpenChevron | CloseChevron
  | OpenBrace | CloseBrace
  | OpenBracket | CloseBracket
  | TemplateLiteralStart
  | TemplateLiteralChunk (s : String)
  | TemplateLiteralExpressionStart
  | TemplateLiteralExpressionEnd
  | TemplateLiteralEnd
  | Comment (s : String)
  | MultiLineComment (s : String)
  | Comma | Dot | Colon | OptionalMember | QuestionMark | Spread
  | BitwiseOr | BitwiseAnd
  | BitwiseShiftRight | BitwiseShiftRightUnsigned
  | Arrow
  | Identifier (s : String)
  deriving DecidableEq, Repr

/-- `TSXToken::is_comment`. Modelled from the spec: comments are produced by
the external tokenizer; the engine only skips them. -/
def TSXToken.isComment : TSXToken → Bool
  | .Comment _ => true
  | .MultiLineComment _ => true
  | _ => false

/-- A token paired with its source span (Rust `Token(TSXToken, Span)`). -/
structure Tok where
  tok : TSXToken
  span : Span
  deriving DecidableEq, Repr

/-- Modelled from the spec: the reserved checker-identity slot (`TypeId`) is an
opaque identifier with no behaviour in this core; structural equality ignores
it, so it is modelled as a constant. -/
abbrev TypeId : Type := Nat

/-- `TypeId::new()`. Modelled from the spec: freshly allocated opaque
identifier with no behaviour here. -/
def TypeId.fresh : TypeId := (0 : Nat)

/-- `CursorId<TypeReference>`: opaque incremental-edit marker id. -/
abbrev CursorId : Type := Nat

/-- Modelled from the spec: `NumberStructure` is produced by the external
numeric-literal parser from a raw numeric token; its displayed form is the
value's canonical text.  It is modelled as that canonical text. -/
inductive NumberStructure where
  | Number (raw : String)
  deriving DecidableEq, Repr

/-- `NumberStructure`'s `to_string` (used by the printer). -/
def NumberStructure.toText : NumberStructure → String
  | .Number raw => raw

/-- Modelled from the spec: a decorator node as returned by the external
decorator parser (a name, for this model). -/
structure Decorator where
  name : String
  position : Span
  deriving DecidableEq, Repr

/-- Modelled from the spec: a binding pattern usable as a parameter name, as
returned by the external binding-pattern parser (`WithComment<VariableField<VariableFieldInTypeReference>>`).
Modelled as a plain name. -/
inductive VariableField where
  | Name (s : String) (position : Span)
  deriving DecidableEq, Repr

def VariableField.getPosition : VariableField → Span
  | .Name _ p => p

/-- Modelled from the spec: generic *parameter* constraints
(`GenericTypeConstraint`, parsed by the external `parse_bracketed`); modelled
as a bare parameter name. -/
abbrev GenericTypeConstraint : Type := String

/-- Modelled from the spec: a member of an object literal type, produced by the
external member-list parser; opaque for this model. -/
inductive InterfaceMember where
  | opaqueMember
  deriving DecidableEq, Repr

/-- The error taxonomy of §7 (`crate::ParseErrors`); `ExpectedIdent` stands for
the error produced by the external `token_as_identifier` helper. -/
inductive ParseErrors where
  | UnexpectedToken (expected : List TSXToken) (found : TSXToken)
  | TypeArgumentsNotValidOnReference
  | LexError
  | ExpectedIdent (context : String)
  deriving DecidableEq, Repr

/-- `crate::ParseError`: an error kind together with the offending position. -/
structure ParseError where
  kind : ParseErrors
  position : Span
  deriving DecidableEq, Repr

/-- Modelled from the spec: `errors::parse_lexing_error()` — the `LexError`
raised when the cursor is exhausted where a token was required. -/
def parseLexingError : ParseError :=
  ⟨.LexError, ⟨0, 0, 0⟩⟩

/-- How an embedded Rust computation can fail: a returned `ParseError`, a Rust
`panic!` / `unwrap()` / `unreachable!()` (modelled as `crash`), or exhaustion
of the termination fuel (an artefact of the embedding, never of the code). -/
inductive PFail where
  | err (e : ParseError)
  | crash
  | fuelOut
  deriving DecidableEq, Repr

/-- Result type of embedded fallible computations. -/
abbrev PRes (α : Type) : Type := Except PFail α

mutual

/-- `TypeReference` — the closed set of type-expression shapes
(`pub enum TypeReference` in the source, field for field). -/
inductive TypeReference where
  | Name (name : String) (position : Span)
  | NamespacedName (namespaceName : String) (member : String) (position : Span)
  | NameWithGenericArguments (name : String) (arguments : List TypeReference) (position : Span)
  | Union (members : List TypeReference)
  | Intersection (members : List TypeReference)
  | StringLiteral (content : String) (position : Span)
  | NumberLiteral (value : NumberStructure) (position : Span)
  | BooleanLiteral (value : Bool) (position : Span)
  | ArrayLiteral (item : TypeReference) (position : Span)
  | FunctionLiteral (typeParameters : Option (List GenericTypeConstraint))
      (parameters : TypeReferenceFunctionParameters)
      (returnType : TypeReference) (typeId : TypeId)
  | ConstructorLiteral (newKeyword : Span)
      (typeParameters : Option (List GenericTypeConstraint))
      (parameters : TypeReferenceFunctionParameters)
      (returnType : TypeReference)
  | ObjectLiteral (members : List (Decorator × InterfaceMember)) (typeId : TypeId) (position : Span)
  | TupleLiteral (members : List TupleElement) (typeId : TypeId) (position : Span)
  | TemplateLiteral (parts : List TemplatePart) (position : Span)
  | Readonly (inner : TypeReference) (position : Span)
  | Index (indexee : TypeReference) (indexer : TypeReference) (position : Span)
  | KeyOf (inner : TypeReference) (position : Span)
  | ParenthesizedReference (inner : TypeReference) (position : Span)
  | Conditional (condition : TypeCondition) (resolveTrue : TypeConditionResult)
      (resolveFalse : TypeConditionResult) (position : Span)
  | Decorated (decorator : Decorator) (inner : TypeReference) (position : Span)
  | Cursor (id : CursorId) (position : Span)

/-- `TupleElement`: optional name, spread flag, one owned inner expression. -/
inductive TupleElement where
  | NonSpread (name : Option String) (ty : TypeReference)
  | Spread (name : Option String) (ty : TypeReference)

/-- `TypeCondition`: `Extends{type, extends, position}` or `Is{type, is, position}`. -/
inductive TypeCondition where
  | Extends (tested : TypeReference) (extends_ : TypeReference) (position : Span)
  | Is (tested : TypeReference) (is_ : TypeReference) (position : Span)

/-- `TypeConditionResult`: an `infer` capture or a plain nested expression. -/
inductive TypeConditionResult where
  | Infer (inner : TypeReference) (position : Span)
  | Reference (inner : TypeReference)

/-- `TemplateLiteralPart<TypeReference>` (from `crate::expressions`). -/
inductive TemplatePart where
  | Static (chunk : String)
  | Dynamic (reference : TypeReference)

/-- `TypeReferenceFunctionParameter`: decorators, optional binding-pattern
name, one type expression. -/
inductive TypeReferenceFunctionParameter where
  | mk (decorators : List Decorator) (name : Option VariableField) (typeReference : TypeReference)

/-- `TypeReferenceSpreadFunctionParameter`: decorators, spread position, plain
name, one type expression. -/
inductive TypeReferenceSpreadFunctionParameter where
  | mk (decorators : List Decorator) (spreadPosition : Span) (name : String)
      (typeReference : TypeReference)

/-- `TypeReferenceFunctionParameters`: required bucket, optional bucket, at
most one rest parameter, and the list's position. -/
inductive TypeReferenceFunctionParameters where
  | mk (parameters : List TypeReferenceFunctionParameter)
      (optionalParameters : List TypeReferenceFunctionParameter)
      (restParameter : Option TypeReferenceSpreadFunctionParameter)
      (position : Span)

end

def TypeReferenceFunctionParameters.parameters : TypeReferenceFunctionParameters → List TypeReferenceFunctionParameter
  | .mk ps _ _ _ => ps

def TypeReferenceFunctionParameters.optionalParameters : TypeReferenceFunctionParameters → List TypeReferenceFunctionParameter
  | .mk _ os _ _ => os

def TypeReferenceFunctionParameters.restParameter : TypeReferenceFunctionParameters → Option TypeReferenceSpreadFunctionParameter
  | .mk _ _ r _ => r

def TypeReferenceFunctionParameters.position : TypeReferenceFunctionParameters → Span
  | .mk _ _ _ p => p

def TypeReferenceFunctionParameter.name : TypeReferenceFunctionParameter → Option VariableField
  | .mk _ n _ => n

def TypeReferenceFunctionParameter.typeReference : TypeReferenceFunctionParameter → TypeReference
  | .mk _ _ t => t

def TypeReferenceSpreadFunctionParameter.name : TypeReferenceSpreadFunctionParameter → String
  | .mk _ _ n _ => n

def TypeReferenceSpreadFunctionParameter.typeReference : TypeReferenceSpreadFunctionParameter → TypeReference
  | .mk _ _ _ t => t

mutual

/-- `TypeReference::get_position` (source lines 334-363).  For `Union` /
`Intersection` the Rust unwraps the first and last member; the empty-list case
is a Rust panic on a state the engine never constructs, modelled here by a
dummy span. -/
def TypeReference.getPosition : TypeReference → Span
  | .Name _ p => p
  | .NamespacedName _ _ p => p
  | .NameWithGenericArguments _ _ p => p
  | .ArrayLiteral _ p => p
  | .BooleanLiteral _ p => p
  | .StringLiteral _ p => p
  | .NumberLiteral _ p => p
  | .Readonly _ p => p
  | .Conditional _ _ _ p => p
  | .ObjectLiteral _ _ p => p
  | .TupleLiteral _ _ p => p
  | .Index _ _ p => p
  | .KeyOf _ p => p
  | .ParenthesizedReference _ p => p
  | .Cursor _ p => p
  | .TemplateLiteral _ p => p
  | .Decorated _ _ p => p
  | .FunctionLiteral _ params ret _ => params.position.union ret.getPosition
  | .ConstructorLiteral kw _ _ ret => kw.union ret.getPosition
  | .Union items =>
      match items with
      | [] => ⟨0, 0, 0⟩
      | m :: rest => (m.getPosition).union (TypeReference.getPositionLast m rest)
  | .Intersection items =>
      match items with
      | [] => ⟨0, 0, 0⟩
      | m :: rest => (m.getPosition).union (TypeReference.getPositionLast m rest)
termination_by t => sizeOf t
decreasing_by all_goals (simp_wf <;> omega)

/-- Position of the last element of `d :: l` (Rust `items.last().unwrap().get_position()`). -/
def TypeReference.getPositionLast (d : TypeReference) : List TypeReference → Span
  | [] => d.getPosition
  | x :: rest => TypeReference.getPositionLast x rest
termination_by l => sizeOf d + sizeOf l
decreasing_by all_goals (simp_wf <;> omega)

end

/-- `TypeConditionResult::get_position` (source lines 145-150). -/
def TypeConditionResult.getPosition : TypeConditionResult → Span
  | .Infer _ p => p
  | .Reference r => r.getPosition

/-- `TypeCondition::get_position` (source lines 126-132). -/
def TypeCondition.getPosition : TypeCondition → Span
  | .Extends _ _ p => p
  | .Is _ _ p => p

/-! ## The token reader

The Rust `TokenReader` is modelled by explicit list passing: `peek` is
`List.head?`, `peek_n k` is `List.get? k`, `next` is pattern matching on the
head, and the narrow `peek_mut` capability of §4.2 becomes replacing the head
of the list. -/

/-- The comment-skipping loop at the top of `from_reader_with_config`
(source lines 375-379). -/
def skipComments : List Tok → List Tok
  | ⟨.Comment _, _⟩ :: rest => skipComments rest
  | ⟨.MultiLineComment _, _⟩ :: rest => skipComments rest
  | toks => toks

/-- Modelled from the spec: `TokenReader::expect_next(token)` consumes the
next token, returning its span, or errors with the offending position. -/
def expectNext (expected : TSXToken) : List Tok → PRes (Span × List Tok)
  | ⟨t, sp⟩ :: rest =>
      if t = expected then .ok (sp, rest)
      else .error (.err ⟨.UnexpectedToken [expected] t, sp⟩)
  | [] => .error (.err parseLexingError)

/-- Modelled from the spec: `tokens::token_as_identifier` — "any other
identifier-shaped token → Name leaf"; a non-identifier token is a positioned
error carrying the given context. -/
def tokenAsIdentifier (t : Tok) (context : String) : PRes (String × Span) :=
  match t with
  | ⟨.Identifier s, sp⟩ => .ok (s, sp)
  | ⟨_, sp⟩ => .error (.err ⟨.ExpectedIdent context, sp⟩)

/-- The non-consuming `reader.scan` used for the group-vs-signature decision
(source lines 400-412): track parenthesis depth from an initial count and
return the token *after* the one where the count returns to zero. -/
def findAfterParenClose (count : Int) : List Tok → Option Tok
  | [] => none
  | ⟨t, _⟩ :: rest =>
      let count2 : Int :=
        match t with
        | .OpenParentheses => count + 1
        | .CloseParentheses => count - 1
        | _ => count
      if count2 = 0 then rest.head? else findAfterParenClose count2 rest

/-- The non-consuming `reader.scan` used for the parameter-name decision
(source lines 850-861): track bracket/brace/paren depth and return the token
after the point where the predicate first holds. -/
def findAfterFieldEnd (depth : Int) : List Tok → Option Tok
  | [] => none
  | ⟨t, _⟩ :: rest =>
      match t with
      | .OpenBracket => findAfterFieldEnd (depth + 1) rest
      | .OpenBrace => findAfterFieldEnd (depth + 1) rest
      | .OpenParentheses => findAfterFieldEnd (depth + 1) rest
      | .CloseBracket =>
          if depth - 1 = 0 then rest.head? else findAfterFieldEnd (depth - 1) rest
      | .CloseBrace =>
          if depth - 1 = 0 then rest.head? else findAfterFieldEnd (depth - 1) rest
      | .CloseParentheses =>
          if depth - 1 = 0 then rest.head? else findAfterFieldEnd (depth - 1) rest
      | _ => if depth = 0 then rest.head? else findAfterFieldEnd depth rest

/-- Modelled from the spec: `Decorator::from_reader_sub_at_symbol` — the
external decorator parser, positioned after `@`; modelled as reading one
identifier. -/
def decoratorFromReaderSubAt (toks : List Tok) (atSpan : Span) : PRes (Decorator × List Tok) :=
  match toks with
  | ⟨.Identifier n, sp⟩ :: rest => .ok (⟨n, atSpan.union sp⟩, rest)
  | ⟨_, sp⟩ :: _ => .error (.err ⟨.ExpectedIdent ("decorator name"), sp⟩)
  | [] => .error (.err parseLexingError)

/-- Modelled from the spec: `Decorator::from_reader` — `@` followed by the
decorator proper. -/
def decoratorFromReader (toks : List Tok) : PRes (Decorator × List Tok) :=
  match toks with
  | ⟨.At, sp⟩ :: rest => decoratorFromReaderSubAt rest sp
  | ⟨t, sp⟩ :: _ => .error (.err ⟨.UnexpectedToken [.At] t, sp⟩)
  | [] => .error (.err parseLexingError)

/-- Modelled from the spec: the external binding-pattern parser
(`WithComment<VariableField<VariableFieldInTypeReference>>::from_reader`),
modelled as reading one identifier. -/
def variableFieldFromReader (toks : List Tok) : PRes (VariableField × List Tok) :=
  match toks with
  | ⟨.Identifier n, sp⟩ :: rest => .ok (.Name n sp, rest)
  | ⟨_, sp⟩ :: _ => .error (.err ⟨.ExpectedIdent ("variable field"), sp⟩)
  | [] => .error (.err parseLexingError)

/-- Modelled from the spec: the external member-list parser
(`parse_interface_members`) returns an ordered member list leaving the cursor
before the closing brace.  Only the empty member list is modelled (no claim
inspects object-type members). -/
def parseInterfaceMembers (toks : List Tok) : PRes (List (Decorator × InterfaceMember) × List Tok) :=
  .ok ([], toks)

/-- Modelled from the spec: `parse_bracketed::<GenericTypeConstraint>`
terminated by `>` — the external generic-parameter-list parser, modelled as a
comma-separated identifier list.  Returns the constraints, the closing span
and the remainder. -/
def parseBracketedConstraints : List Tok → PRes (List GenericTypeConstraint × Span × List Tok)
  | ⟨.CloseChevron, sp⟩ :: rest => .ok ([], sp, rest)
  | ⟨.Identifier n, _⟩ :: ⟨.Comma, _⟩ :: rest =>
      (parseBracketedConstraints rest).map (fun r => (n :: r.1, r.2.1, r.2.2))
  | ⟨.Identifier n, _⟩ :: rest =>
      (parseBracketedConstraints rest).map (fun r => (n :: r.1, r.2.1, r.2.2))
  | ⟨t, p⟩ :: _ => .error (.err ⟨.UnexpectedToken [.CloseChevron, .Comma] t, p⟩)
  | [] => .error (.err parseLexingError)

/-- The group-vs-signature check `if let Some(Token(TSXToken::Arrow, _)) = next`
on the scan result (source line 414). -/
def isArrowToken : Option Tok → Bool
  | some ⟨.Arrow, _⟩ => true
  | _ => false

/-- The binding-pattern check
`if let Some(Token(TSXToken::Colon | TSXToken::OptionalMember, _)) = after_variable_field`
(source lines 862-869). -/
def isColonOrOptionalMember : Option Tok → Bool
  | some ⟨.Colon, _⟩ => true
  | some ⟨.OptionalMember, _⟩ => true
  | _ => false

/-- The tuple-literal name check `if let Some(Token(TSXToken::Colon, _)) = reader.peek_n(1)`
(source line 464). -/
def isColonToken : Option Tok → Bool
  | some ⟨.Colon, _⟩ => true
  | _ => false

/-- Result of stage 1 of `from_reader_with_config`: `early` marks the
`readonly` / `keyof` arms, which `return` from the Rust function without
running stages 2-3; `atom` marks every other arm. -/
inductive StageOneResult where
  | early (reference : TypeReference) (rest : List Tok)
  | atom (reference : TypeReference) (rest : List Tok)

mutual

/-- `TypeReference::from_reader_with_config` (source lines 369-701).  Fuel is
decremented on every call between the mutually recursive functions. -/
def TypeReference.fromReaderWithConfig :
    Nat → List Tok → Bool → PRes (TypeReference × List Tok)
  | 0, _, _ => .error .fuelOut
  | fuel + 1, toks, returnOnUnionOrIntersection =>
    match skipComments toks with
    | [] => .error (.err parseLexingError)
    | tk :: rest =>
      match stageOne fuel tk rest with
      | .error e => .error e
      | .ok (.early reference toks2) => .ok (reference, toks2)
      | .ok (.atom reference toks2) =>
          stageTwoThree fuel returnOnUnionOrIntersection reference toks2

/-- Stage 1 of `from_reader_with_config`: the atom dispatch
(source lines 380-548), arm for arm in source order. -/
def stageOne : Nat → Tok → List Tok → PRes StageOneResult
  | 0, _, _ => .error .fuelOut
  | fuel + 1, ⟨tok, pos⟩, rest =>
    match tok with
    | .Keyword .True => .ok (.atom (.BooleanLiteral true pos) rest)
    | .Keyword .False => .ok (.atom (.BooleanLiteral false pos) rest)
    | .NumberLiteral num =>
        -- `num.parse::<NumberStructure>().unwrap()`; the external numeric
        -- parse is modelled as the canonical text itself.
        .ok (.atom (.NumberLiteral (.Number num) pos) rest)
    | .SingleQuotedStringLiteral content =>
        .ok (.atom (.StringLiteral content pos) rest)
    | .DoubleQuotedStringLiteral content =>
        .ok (.atom (.StringLiteral content pos) rest)
    | .At => do
        let (decorator, rest2) ← decoratorFromReaderSubAt rest pos
        let (thisDeclaration, rest3) ← TypeReference.fromReaderWithConfig fuel rest2 true
        let position := pos.union thisDeclaration.getPosition
        .ok (.atom (.Decorated decorator thisDeclaration position) rest3)
    | .OpenParentheses =>
        -- Discern between group or arrow function (scan, non-consuming):
        if isArrowToken (findAfterParenClose 1 rest) then do
            let (parameters, rest2) ←
              TypeReferenceFunctionParameters.fromReaderSubOpenParenthesis fuel rest pos
            let (_, rest3) ← expectNext .Arrow rest2
            let (returnType, rest4) ← TypeReference.fromReaderWithConfig fuel rest3 false
            .ok (.atom (.FunctionLiteral none parameters returnType TypeId.fresh) rest4)
        else do
            let (typeReference, rest2) ← TypeReference.fromReaderWithConfig fuel rest false
            let (endPosition, rest3) ← expectNext .CloseParentheses rest2
            let position := pos.union endPosition
            .ok (.atom (.ParenthesizedReference typeReference position) rest3)
    | .OpenChevron => do
        let (typeParameters, _, rest2) ← parseBracketedConstraints rest
        let (parameters, rest3) ← TypeReferenceFunctionParameters.fromReader fuel rest2
        let (_, rest4) ← expectNext .Arrow rest3
        let (returnType, rest5) ← TypeReference.fromReaderWithConfig fuel rest4 false
        .ok (.atom (.FunctionLiteral (some typeParameters) parameters returnType TypeId.fresh) rest5)
    | .OpenBrace => do
        let (members, rest2) ← parseInterfaceMembers rest
        let (endSpan, rest3) ← expectNext .CloseBrace rest2
        .ok (.atom (.ObjectLiteral members TypeId.fresh (pos.union endSpan)) rest3)
    | .OpenBracket => do
        let (members, rest2) ← tupleMembersLoop fuel [] rest
        let (endPos, rest3) ← expectNext .CloseBracket rest2
        .ok (.atom (.TupleLiteral members TypeId.fresh (pos.union endPos)) rest3)
    | .TemplateLiteralStart => do
        let (parts, endSpan, rest2) ← templatePartsLoop fuel [] rest
        .ok (.atom (.TemplateLiteral parts (pos.union endSpan)) rest2)
    | .Keyword .Readonly => do
        let (readonlyType, rest2) ← TypeReference.fromReaderWithConfig fuel rest false
        let position := pos.union readonlyType.getPosition
        .ok (.early (.Readonly readonlyType position) rest2)
    | .Keyword .KeyOf => do
        let (keyOfType, rest2) ← TypeReference.fromReaderWithConfig fuel rest false
        let position := pos.union keyOfType.getPosition
        .ok (.early (.KeyOf keyOfType position) rest2)
    | .Keyword .New => do
        let typeParametersStep : PRes (Option (List GenericTypeConstraint) × List Tok) :=
          match rest with
          | ⟨.OpenChevron, _⟩ :: rest2 =>
              -- `conditional_next(OpenChevron)` succeeded
              (parseBracketedConstraints rest2).map (fun r => (some r.1, r.2.2))
          | _ => .ok (none, rest)
        let (typeParameters, rest2) ← typeParametersStep
        let (parameters, rest3) ← TypeReferenceFunctionParameters.fromReader fuel rest2
        let (_, rest4) ← expectNext .Arrow rest3
        let (returnType, rest5) ← TypeReference.fromReaderWithConfig fuel rest4 false
        .ok (.atom (.ConstructorLiteral pos typeParameters parameters returnType) rest5)
    | _ => do
        let (name, namePos) ← tokenAsIdentifier ⟨tok, pos⟩ ("type reference")
        .ok (.atom (.Name name namePos) rest)

/-- Stages 2-3 of `from_reader_with_config`: the namespaced-name promotion
(lines 549-558), the generic-arguments promotion (lines 559-584) — both of
which `return` — and otherwise the suffix loop and the binary/ternary
continuation. -/
def stageTwoThree :
    Nat → Bool → TypeReference → List Tok → PRes (TypeReference × List Tok)
  | 0, _, _, _ => .error .fuelOut
  | fuel + 1, returnOnUnionOrIntersection, reference, toks =>
    match toks with
    | ⟨.Dot, _⟩ :: rest =>
        match reference with
        | .Name name start =>
            match rest with
            | tk :: rest2 => do
                let (namespaceMember, endSp) ← tokenAsIdentifier tk ("namespace name")
                let position := start.union endSp
                .ok (.NamespacedName name namespaceMember position, rest2)
            | [] => .error .crash -- `reader.next().unwrap()` on an empty cursor
        | _ => .error .crash -- `if let Name ... else { panic!() }`
    | ⟨.OpenChevron, chevronPos⟩ :: rest =>
        match reference with
        | .Name name startSpan => do
            let (genericArguments, endSpan, rest2) ←
              genericArgsLoop fuel [] rest returnOnUnionOrIntersection
            .ok (.NameWithGenericArguments name genericArguments (startSpan.union endSpan), rest2)
        | _ =>
            -- `let Token(_, position) = reader.next().unwrap();` then error
            .error (.err ⟨.TypeArgumentsNotValidOnReference, chevronPos⟩)
    | _ => do
        let (reference2, toks2) ← suffixLoop fuel reference toks
        stageThree fuel returnOnUnionOrIntersection reference2 toks2

/-- The array-shorthand / indexed-access suffix loop
(source lines 585-600). -/
def suffixLoop : Nat → TypeReference → List Tok → PRes (TypeReference × List Tok)
  | 0, _, _ => .error .fuelOut
  | fuel + 1, reference, toks =>
    match toks with
    | ⟨.OpenBracket, _⟩ :: rest =>
        match rest with
        | ⟨.CloseBracket, closeSp⟩ :: rest2 =>
            let position := (reference.getPosition).union closeSp
            suffixLoop fuel (.ArrayLiteral reference position) rest2
        | _ => do
            let start := reference.getPosition
            let (indexer, rest2) ← TypeReference.fromReaderWithConfig fuel rest false
            let (closeSp, rest3) ← expectNext .CloseBracket rest2
            suffixLoop fuel (.Index reference indexer (start.union closeSp)) rest3
    | _ => .ok (reference, toks)

/-- Stage 3 of `from_reader_with_config`: the `extends` / `is` / `|` / `&` /
`=>` continuation (source lines 602-700). -/
def stageThree :
    Nat → Bool → TypeReference → List Tok → PRes (TypeReference × List Tok)
  | 0, _, _, _ => .error .fuelOut
  | fuel + 1, returnOnUnionOrIntersection, reference, toks =>
    match toks with
    | ⟨.Keyword .Extends, _⟩ :: rest => do
        let (extendsType, rest2) ← TypeReference.fromReaderWithConfig fuel rest true
        let position := (reference.getPosition).union extendsType.getPosition
        let condition := TypeCondition.Extends reference extendsType position
        let (_, rest3) ← expectNext .QuestionMark rest2
        let (lhs, rest4) ← typeConditionResultFromReader fuel rest3
        let (_, rest5) ← expectNext .Colon rest4
        let (rhs, rest6) ← typeConditionResultFromReader fuel rest5
        let position2 := condition.getPosition.union rhs.getPosition
        .ok (.Conditional condition lhs rhs position2, rest6)
    | ⟨.Keyword .Is, _⟩ :: rest => do
        let (isType, rest2) ← TypeReference.fromReaderWithConfig fuel rest true
        let position := (reference.getPosition).union isType.getPosition
        let condition := TypeCondition.Is reference isType position
        let (_, rest3) ← expectNext .QuestionMark rest2
        let (resolveTrue, rest4) ← typeConditionResultFromReader fuel rest3
        let (_, rest5) ← expectNext .Colon rest4
        let (resolveFalse, rest6) ← typeConditionResultFromReader fuel rest5
        let position2 := condition.getPosition.union resolveFalse.getPosition
        .ok (.Conditional condition resolveTrue resolveFalse position2, rest6)
    | ⟨.BitwiseOr, _⟩ :: _ =>
        if returnOnUnionOrIntersection then .ok (reference, toks)
        else do
          let (unionMembers, rest2) ← unionCollect fuel [reference] toks
          .ok (.Union unionMembers, rest2)
    | ⟨.BitwiseAnd, _⟩ :: _ =>
        if returnOnUnionOrIntersection then .ok (reference, toks)
        else do
          let (intersectionMembers, rest2) ← intersectionCollect fuel [reference] toks
          .ok (.Intersection intersectionMembers, rest2)
    | ⟨.Arrow, _⟩ :: rest => do
        let (returnType, rest2) ← TypeReference.fromReaderWithConfig fuel rest true
        let position := reference.getPosition
        let parameters : TypeReferenceFunctionParameters :=
          ⟨[⟨[], none, reference⟩], [], none, position⟩
        .ok (.FunctionLiteral none parameters returnType TypeId.fresh, rest2)
    | _ => .ok (reference, toks)

/-- The union-member collection loop
(`while let Some(BitwiseOr) = peek`, source lines 658-664). -/
def unionCollect :
    Nat → List TypeReference → List Tok → PRes (List TypeReference × List Tok)
  | 0, _, _ => .error .fuelOut
  | fuel + 1, acc, toks =>
    match toks with
    | ⟨.BitwiseOr, _⟩ :: rest => do
        let (member, rest2) ← TypeReference.fromReaderWithConfig fuel rest true
        unionCollect fuel (acc ++ [member]) rest2
    | _ => .ok (acc, toks)

/-- The intersection-member collection loop (source lines 670-675). -/
def intersectionCollect :
    Nat → List TypeReference → List Tok → PRes (List TypeReference × List Tok)
  | 0, _, _ => .error .fuelOut
  | fuel + 1, acc, toks =>
    match toks with
    | ⟨.BitwiseAnd, _⟩ :: rest => do
        let (member, rest2) ← TypeReference.fromReaderWithConfig fuel rest true
        intersectionCollect fuel (acc ++ [member]) rest2
    | _ => .ok (acc, toks)

/-- `TypeConditionResult::from_reader` (source lines 152-166).  Note the Rust
`reader.peek().unwrap()`: an exhausted cursor is a panic here. -/
def typeConditionResultFromReader :
    Nat → List Tok → PRes (TypeConditionResult × List Tok)
  | 0, _ => .error .fuelOut
  | fuel + 1, toks =>
    match toks with
    | ⟨.Keyword .Infer, start⟩ :: rest => do
        let (inferredType, rest2) ← TypeReference.fromReaderWithConfig fuel rest false
        let position := start.union inferredType.getPosition
        .ok (.Infer inferredType position, rest2)
    | _ :: _ =>
        (TypeReference.fromReaderWithConfig fuel toks false).map
          (fun r => (.Reference r.1, r.2))
    | [] => .error .crash

/-- `generic_arguments_from_reader_sub_open_angle` (source lines 707-762):
the argument loop including the destructive narrowing of a merged shift token
via `peek_mut`. -/
def genericArgsLoop :
    Nat → List TypeReference → List Tok → Bool → PRes (List TypeReference × Span × List Tok)
  | 0, _, _, _ => .error .fuelOut
  | fuel + 1, acc, toks, returnOnUnionOrIntersection => do
    let (argument, rest) ←
      TypeReference.fromReaderWithConfig fuel toks returnOnUnionOrIntersection
    let acc2 := acc ++ [argument]
    match rest with
    | ⟨.BitwiseShiftRight, span⟩ :: tl =>
        let closeChevronSpan : Span := ⟨span.start, span.start + 1, span.sourceId⟩
        -- the remaining token is narrowed in place: `span.start += 1; *t = CloseChevron`
        .ok (acc2, closeChevronSpan, ⟨.CloseChevron, ⟨span.start + 1, span.stop, span.sourceId⟩⟩ :: tl)
    | ⟨.BitwiseShiftRightUnsigned, span⟩ :: tl =>
        let closeChevronSpan : Span := ⟨span.start, span.start + 1, span.sourceId⟩
        .ok (acc2, closeChevronSpan, ⟨.CloseChevron, ⟨span.start + 1, span.stop, span.sourceId⟩⟩ :: tl)
    | ⟨.Comma, _⟩ :: tl => genericArgsLoop fuel acc2 tl returnOnUnionOrIntersection
    | ⟨.CloseChevron, endSpan⟩ :: tl => .ok (acc2, endSpan, tl)
    | ⟨token, position⟩ :: _ =>
        .error (.err ⟨.UnexpectedToken [.CloseChevron, .Comma] token, position⟩)
    | [] => .error (.err parseLexingError)

/-- The tuple-literal member loop (source lines 459-488).  Note the loop's
entry check peeks for `CloseBrace` (`}`), exactly as the source does. -/
def tupleMembersLoop :
    Nat → List TupleElement → List Tok → PRes (List TupleElement × List Tok)
  | 0, _, _ => .error .fuelOut
  | fuel + 1, acc, toks =>
    match toks with
    | ⟨.CloseBrace, _⟩ :: _ => .ok (acc, toks)
    | _ => do
        let nameStep : PRes (Option String × List Tok) :=
          if isColonToken (toks.get? 1) then
            match toks with
            | tk :: rest1 =>
                -- `reader.next();` after the name drops the colon
                (tokenAsIdentifier tk ("tuple literal named item")).map
                  (fun r => (some r.1, rest1.drop 1))
            | [] => .error .crash
          else .ok ((none : Option String), toks)
        let (name, toks2) ← nameStep
        let memberStep : PRes (TupleElement × List Tok) :=
          match toks2 with
          | ⟨.Spread, _⟩ :: rest2 =>
              (TypeReference.fromReaderWithConfig fuel rest2 false).map
                (fun r => (TupleElement.Spread name r.1, r.2))
          | _ =>
              (TypeReference.fromReaderWithConfig fuel toks2 false).map
                (fun r => (TupleElement.NonSpread name r.1, r.2))
        let (member, rest3) ← memberStep
        let acc2 := acc ++ [member]
        match rest3 with
        | ⟨.Comma, _⟩ :: rest4 => tupleMembersLoop fuel acc2 rest4
        | _ => .ok (acc2, rest3)

/-- The template-literal part loop (source lines 493-510). -/
def templatePartsLoop :
    Nat → List TemplatePart → List Tok → PRes (List TemplatePart × Span × List Tok)
  | 0, _, _ => .error .fuelOut
  | fuel + 1, acc, toks =>
    match toks with
    | ⟨.TemplateLiteralChunk chunk, _⟩ :: rest =>
        templatePartsLoop fuel (acc ++ [.Static chunk]) rest
    | ⟨.TemplateLiteralExpressionStart, _⟩ :: rest => do
        let (expression, rest2) ← TypeReference.fromReaderWithConfig fuel rest false
        let (_, rest3) ← expectNext .TemplateLiteralExpressionEnd rest2
        templatePartsLoop fuel (acc ++ [.Dynamic expression]) rest3
    | ⟨.TemplateLiteralEnd, endPosition⟩ :: rest => .ok (acc, endPosition, rest)
    | _ :: _ => .error .crash -- `unreachable!()`
    | [] => .error (.err parseLexingError)

/-- `TypeReferenceFunctionParameters::from_reader` (source lines 779-786). -/
def TypeReferenceFunctionParameters.fromReader :
    Nat → List Tok → PRes (TypeReferenceFunctionParameters × List Tok)
  | 0, _ => .error .fuelOut
  | fuel + 1, toks => do
      let (span, rest) ← expectNext .OpenParentheses toks
      TypeReferenceFunctionParameters.fromReaderSubOpenParenthesis fuel rest span

/-- `TypeReferenceFunctionParameters::from_reader_sub_open_parenthesis`
(source lines 817-903). -/
def TypeReferenceFunctionParameters.fromReaderSubOpenParenthesis :
    Nat → List Tok → Span → PRes (TypeReferenceFunctionParameters × List Tok)
  | 0, _, _ => .error .fuelOut
  | fuel + 1, toks, openParenSpan => do
      let (parameters, optionalParameters, restParameter, toks2) ←
        paramsLoop fuel [] [] none toks
      let (endSpan, toks3) ← expectNext .CloseParentheses toks2
      .ok (⟨parameters, optionalParameters, restParameter, openParenSpan.union endSpan⟩, toks3)

/-- The parameter loop of `from_reader_sub_open_parenthesis`
(source lines 826-895): runs while the next token is not `)`; the rest
parameter `break`s out of the loop. -/
def paramsLoop :
    Nat → List TypeReferenceFunctionParameter → List TypeReferenceFunctionParameter →
    Option TypeReferenceSpreadFunctionParameter → List Tok →
    PRes (List TypeReferenceFunctionParameter × List TypeReferenceFunctionParameter ×
      Option TypeReferenceSpreadFunctionParameter × List Tok)
  | 0, _, _, _, _ => .error .fuelOut
  | fuel + 1, parameters, optionalParameters, restParameter, toks =>
    match toks with
    | ⟨.CloseParentheses, _⟩ :: _ =>
        .ok (parameters, optionalParameters, restParameter, toks)
    | _ => do
        let toks := skipComments toks
        let (decorators, toks2) ← decoratorsLoop fuel [] toks
        match toks2 with
        | ⟨.Spread, spreadSpan⟩ :: rest2 =>
            match rest2 with
            | tk :: rest3 => do
                let (name, _) ← tokenAsIdentifier tk ("spread function parameter")
                let (_, rest4) ← expectNext .Colon rest3
                let (typeReference, rest5) ←
                  TypeReference.fromReaderWithConfig fuel rest4 false
                -- `rest_parameter = Some(..); break;`
                .ok (parameters, optionalParameters,
                  some ⟨decorators, spreadSpan, name, typeReference⟩, rest5)
            | [] => .error (.err parseLexingError)
        | _ => do
            let nameStep : PRes (Option VariableField × List Tok) :=
              if isColonOrOptionalMember (findAfterFieldEnd 0 toks2) then
                (variableFieldFromReader toks2).map (fun r => ((some r.1 : Option VariableField), r.2))
              else .ok ((none : Option VariableField), toks2)
            let (name, toks3) ← nameStep
            let optionalStep : PRes (Bool × List Tok) :=
              match toks3 with
              | ⟨.Colon, _⟩ :: rest4 => .ok (false, rest4)
              | ⟨.OptionalMember, _⟩ :: rest4 => .ok (true, rest4)
              | ⟨token, position⟩ :: _ =>
                  .error (.err ⟨.UnexpectedToken [.Colon, .OptionalMember] token, position⟩)
              | [] => .error (.err parseLexingError)
            let (isOptional, rest4) ← optionalStep
            let (typeReference, rest5) ← TypeReference.fromReaderWithConfig fuel rest4 false
            let parameter : TypeReferenceFunctionParameter := ⟨decorators, name, typeReference⟩
            let (parameters2, optionalParameters2) :=
              if isOptional then (parameters, optionalParameters ++ [parameter])
              else (parameters ++ [parameter], optionalParameters)
            match rest5 with
            | ⟨.Comma, _⟩ :: rest6 =>
                paramsLoop fuel parameters2 optionalParameters2 restParameter rest6
            | _ => .ok (parameters2, optionalParameters2, restParameter, rest5)

/-- The decorator-collection loop at the head of each parameter
(source lines 830-833). -/
def decoratorsLoop :
    Nat → List Decorator → List Tok → PRes (List Decorator × List Tok)
  | 0, _, _ => .error .fuelOut
  | fuel + 1, acc, toks =>
    match toks with
    | ⟨.At, _⟩ :: _ => do
        let (decorator, rest) ← decoratorFromReader toks
        decoratorsLoop fuel (acc ++ [decorator]) rest
    | _ => .ok (acc, toks)

end

/-- `TypeReference::from_reader` (source lines 187-193): the public entry
point, `from_reader_with_config` with the stop-flag unset. -/
def TypeReference.fromReader (fuel : Nat) (toks : List Tok) : PRes (TypeReference × List Tok) :=
  TypeReference.fromReaderWithConfig fuel toks false

/-- `generic_arguments_from_reader_sub_open_angle` proper: the loop started
with an empty argument vector. -/
def genericArgumentsFromReaderSubOpenAngle (fuel : Nat) (toks : List Tok)
    (returnOnUnionOrIntersection : Bool) : PRes (List TypeReference × Span × List Tok) :=
  genericArgsLoop fuel [] toks returnOnUnionOrIntersection

/-! ## The lexer (modelled)

Tokenization is an external collaborator (§1 "Out of scope ... tokenization").
It is modelled from the spec for the characters the type grammar uses; in
particular "the lexer may merge consecutive `>` characters into a shift-right
or unsigned-shift-right token" (§4.2), which this model does greedily. -/

/-- Identifier start characters. -/
def identStartChar (c : Char) : Bool := c.isAlpha || c = '_'

/-- Identifier continuation characters. -/
def identChar (c : Char) : Bool := c.isAlpha || c.isDigit || c = '_'

/-- Keyword recognition for identifier-shaped words. -/
def keywordOf (w : String) : Option TSXKeyword :=
  if w = "true" then some .True
  else if w = "false" then some .False
  else if w = "readonly" then some .Readonly
  else if w = "keyof" then some .KeyOf
  else if w = "new" then some .New
  else if w = "extends" then some .Extends
  else if w = "is" then some .Is
  else if w = "infer" then some .Infer
  else none

theorem dropWhileLengthLe (p : Char → Bool) : ∀ l : List Char, (l.dropWhile p).length ≤ l.length
  | [] => le_refl _
  | a :: l => by
    simp only [List.dropWhile]
    split
    · exact le_trans (dropWhileLengthLe p l) (Nat.le_succ _)
    · exact le_refl _

/-- Modelled from the spec: one step of the external tokenizer — the next
token (with its span), the next offset, and the remaining characters; `none`
on unknown input.  Spaces are handled by `lexFrom`. -/
def lexStep (p : Nat) : List Char → Option (Tok × Nat × List Char)
  | [] => none
  | c :: cs =>
    if identStartChar c then
      let word := c :: cs.takeWhile identChar
      let rest := cs.dropWhile identChar
      let w : String := String.mk word
      let t : TSXToken :=
        match keywordOf w with
        | some k => .Keyword k
        | none => .Identifier w
      some (⟨t, ⟨p, p + word.length, 0⟩⟩, p + word.length, rest)
    else if c.isDigit then
      let word := c :: cs.takeWhile Char.isDigit
      let rest := cs.dropWhile Char.isDigit
      some (⟨.NumberLiteral (String.mk word), ⟨p, p + word.length, 0⟩⟩, p + word.length, rest)
    else if c = '"' then
      let content := cs.takeWhile (fun d => !(d = '"'))
      let rest2 := (cs.dropWhile (fun d => !(d = '"'))).drop 1
      if (cs.dropWhile (fun d => !(d = '"'))).isEmpty then none
      else
        some (⟨.DoubleQuotedStringLiteral (String.mk content), ⟨p, p + content.length + 2, 0⟩⟩,
          p + content.length + 2, rest2)
    else
      match c, cs with
      | '>', '>' :: '>' :: cs2 =>
          some (⟨.BitwiseShiftRightUnsigned, ⟨p, p + 3, 0⟩⟩, p + 3, cs2)
      | '>', '>' :: cs2 => some (⟨.BitwiseShiftRight, ⟨p, p + 2, 0⟩⟩, p + 2, cs2)
      | '>', cs2 => some (⟨.CloseChevron, ⟨p, p + 1, 0⟩⟩, p + 1, cs2)
      | '=', '>' :: cs2 => some (⟨.Arrow, ⟨p, p + 2, 0⟩⟩, p + 2, cs2)
      | '.', '.' :: '.' :: cs2 => some (⟨.Spread, ⟨p, p + 3, 0⟩⟩, p + 3, cs2)
      | '.', cs2 => some (⟨.Dot, ⟨p, p + 1, 0⟩⟩, p + 1, cs2)
      | '?', ':' :: cs2 => some (⟨.OptionalMember, ⟨p, p + 2, 0⟩⟩, p + 2, cs2)
      | '?', cs2 => some (⟨.QuestionMark, ⟨p, p + 1, 0⟩⟩, p + 1, cs2)
      | '|', cs2 => some (⟨.BitwiseOr, ⟨p, p + 1, 0⟩⟩, p + 1, cs2)
      | '&', cs2 => some (⟨.BitwiseAnd, ⟨p, p + 1, 0⟩⟩, p + 1, cs2)
      | ',', cs2 => some (⟨.Comma, ⟨p, p + 1, 0⟩⟩, p + 1, cs2)
      | '<', cs2 => some (⟨.OpenChevron, ⟨p, p + 1, 0⟩⟩, p + 1, cs2)
      | '[', cs2 => some (⟨.OpenBracket, ⟨p, p + 1, 0⟩⟩, p + 1, cs2)
      | ']', cs2 => some (⟨.CloseBracket, ⟨p, p + 1, 0⟩⟩, p + 1, cs2)
      | '(', cs2 => some (⟨.OpenParentheses, ⟨p, p + 1, 0⟩⟩, p + 1, cs2)
      | ')', cs2 => some (⟨.CloseParentheses, ⟨p, p + 1, 0⟩⟩, p + 1, cs2)
      | '\x7b', cs2 => some (⟨.OpenBrace, ⟨p, p + 1, 0⟩⟩, p + 1, cs2)
      | '\x7d', cs2 => some (⟨.CloseBrace, ⟨p, p + 1, 0⟩⟩, p + 1, cs2)
      | ':', cs2 => some (⟨.Colon, ⟨p, p + 1, 0⟩⟩, p + 1, cs2)
      | '@', cs2 => some (⟨.At, ⟨p, p + 1, 0⟩⟩, p + 1, cs2)
      | _, _ => none

/-- Modelled from the spec: the external tokenizer, producing typed tokens
carrying source spans.  `p` is the offset of the first character.  The first
argument is recursion fuel; every step consumes at least one character, so
`cs.length + 1` fuel always suffices (`lexStr` passes exactly that). -/
def lexFrom : Nat → Nat → List Char → Except ParseError (List Tok)
  | 0, p, _ => .error ⟨.LexError, ⟨p, p, 0⟩⟩
  | _ + 1, _, [] => .ok []
  | fuel + 1, p, c :: cs =>
    if c = ' ' then lexFrom fuel (p + 1) cs
    else
      match lexStep p (c :: cs) with
      | some (tk, p2, rest) => (lexFrom fuel p2 rest).map (fun ts => tk :: ts)
      | none => .error ⟨.LexError, ⟨p, p, 0⟩⟩

/-- Tokenize a whole source text. -/
def lexStr (s : String) : Except ParseError (List Tok) :=
  lexFrom (s.data.length + 1) 0 s.data

/-- Run `TypeReference::from_reader` on a source text through the modelled
lexer (errors of the lexer surface as parse errors). -/
def parseStr (fuel : Nat) (s : String) : PRes (TypeReference × List Tok) :=
  match lexStr s with
  | .error e => .error (.err e)
  | .ok toks => TypeReference.fromReader fuel toks

/-! ## The canonical printer -/

/-- Modelled from the spec: printer settings — `expect_cursors: bool` (permit
Placeholder nodes during printing); other formatting data is passed through
unchanged and is not modelled (`crate::ToStringSettingsAndData`, of which the
source reads `settings.0.expect_cursors`). -/
structure ToStringSettings where
  expectCursors : Bool
  deriving DecidableEq, Repr

/-- Modelled from the spec: printing of the opaque object-type members
(`Decorated<InterfaceMember>::to_string_from_buffer` lives outside this file);
total, never faults. -/
def interfaceMemberToString (_ : Decorator × InterfaceMember) : String := ""

/-- Modelled from the spec: `Decorator::to_string_from_buffer` (external). -/
def Decorator.toText (d : Decorator) : String := ("@") ++ d.name

/-- Modelled from the spec: printing a binding pattern (external). -/
def VariableField.toText : VariableField → String
  | .Name n _ => n

/-- Modelled from the spec: `to_string_bracketed` over generic *parameter*
constraints (external): separator-normalised, wrapped in the two brackets. -/
def constraintsBracketed (l : List GenericTypeConstraint) : String :=
  ("<") ++ String.intercalate (", ") l ++ (">")

mutual

/-- `TypeReference::to_string_from_buffer` (source lines 195-332).  The buffer
becomes the returned string; `panic!` / `unimplemented!()` become `none`. -/
def TypeReference.toStringFromBuffer (st : ToStringSettings) (depth : Nat) :
    TypeReference → Option String
  | .Cursor _ _ =>
      -- `if !settings.0.expect_cursors { panic!() }` — and otherwise the
      -- buffer is left untouched.
      if st.expectCursors then some "" else none
  | .Decorated decorator inner _ =>
      (TypeReference.toStringFromBuffer st depth inner).map
        (fun i => decorator.toText ++ (" ") ++ i)
  | .Name name _ => some name
  | .NameWithGenericArguments name args _ =>
      -- `to_string_bracketed(arguments, ('<', '>'), ..)`; modelled from the
      -- spec: separators normalised to `", "`.
      (toStringList st depth (", ") args).map (fun a => name ++ ("<") ++ a ++ (">"))
  | .FunctionLiteral typeParameters parameters returnType _ =>
      (toStringParams st depth parameters).bind (fun ps =>
        (TypeReference.toStringFromBuffer st depth returnType).map (fun r =>
          (match typeParameters with
           | some tps => constraintsBracketed tps
           | none => "") ++ ps ++ (" => ") ++ r))
  | .BooleanLiteral b _ => some (if b then "true" else "false")
  | .NumberLiteral v _ => some v.toText
  | .StringLiteral content _ => some (("\"") ++ content ++ ("\""))
  | .Union unionMembers => toStringList st depth (" | ") unionMembers
  | .Intersection intersectionMembers => toStringList st depth (" & ") intersectionMembers
  | .NamespacedName _ _ _ => none -- `unimplemented!()`
  | .ObjectLiteral members _ _ =>
      some (("\x7b") ++ String.intercalate (", ") (members.map interfaceMemberToString) ++ ("\x7d"))
  | .TupleLiteral members _ _ =>
      (toStringTupleMembers st depth members).map (fun m => ("[") ++ m ++ ("]"))
  | .Index _ _ _ => none -- `unimplemented!()`
  | .KeyOf _ _ => none -- `unimplemented!()`
  | .Conditional condition resolveTrue resolveFalse _ =>
      (toStringCondition st depth condition).bind (fun c =>
        (toStringConditionResult st depth resolveTrue).bind (fun t =>
          (toStringConditionResult st depth resolveFalse).map (fun f =>
            c ++ (" ? ") ++ t ++ (" : ") ++ f)))
  | .ArrayLiteral item _ =>
      (TypeReference.toStringFromBuffer st depth item).map (fun i => i ++ ("[]"))
  | .ConstructorLiteral _ typeParameters parameters returnType =>
      (toStringParams st depth parameters).bind (fun ps =>
        (TypeReference.toStringFromBuffer st depth returnType).map (fun r =>
          ("new ") ++
          (match typeParameters with
           | some tps => constraintsBracketed tps
           | none => "") ++ ps ++ (" => ") ++ r))
  | .Readonly readonlyType _ =>
      (TypeReference.toStringFromBuffer st depth readonlyType).map
        (fun i => ("readonly ") ++ i)
  | .ParenthesizedReference reference _ =>
      (TypeReference.toStringFromBuffer st depth reference).map
        (fun i => ("(") ++ i ++ (")"))
  | .TemplateLiteral parts _ =>
      (toStringTemplateParts st depth parts).map (fun x => ("`") ++ x ++ ("`"))
termination_by t => sizeOf t
decreasing_by all_goals (simp_wf <;> omega)

/-- The `endiate`-style separator join used for `Union` / `Intersection`
members and bracketed argument lists. -/
def toStringList (st : ToStringSettings) (depth : Nat) (sep : String) :
    List TypeReference → Option String
  | [] => some ""
  | [x] => TypeReference.toStringFromBuffer st depth x
  | x :: y :: rest =>
      (TypeReference.toStringFromBuffer st depth x).bind (fun a =>
        (toStringList st depth sep (y :: rest)).map (fun b => a ++ sep ++ b))
termination_by l => sizeOf l
decreasing_by all_goals (simp_wf <;> omega)

/-- Tuple-member rendering (source lines 263-284). -/
def toStringTupleMembers (st : ToStringSettings) (depth : Nat) :
    List TupleElement → Option String
  | [] => some ""
  | [m] => toStringTupleMember st depth m
  | m :: y :: rest =>
      (toStringTupleMember st depth m).bind (fun a =>
        (toStringTupleMembers st depth (y :: rest)).map (fun b => a ++ (", ") ++ b))
termination_by l => sizeOf l
decreasing_by all_goals (simp_wf <;> omega)

/-- One tuple member: optional `name: `, `...` for spreads, then the type. -/
def toStringTupleMember (st : ToStringSettings) (depth : Nat) :
    TupleElement → Option String
  | .NonSpread name ty =>
      (TypeReference.toStringFromBuffer st depth ty).map (fun t =>
        (match name with
         | some n => n ++ (": ")
         | none => "") ++ t)
  | .Spread name ty =>
      (TypeReference.toStringFromBuffer st depth ty).map (fun t =>
        (match name with
         | some n => n ++ (": ")
         | none => "") ++ ("...") ++ t)
termination_by m => sizeOf m
decreasing_by all_goals (simp_wf <;> omega)

/-- Template-literal part rendering (source lines 317-330). -/
def toStringTemplateParts (st : ToStringSettings) (depth : Nat) :
    List TemplatePart → Option String
  | [] => some ""
  | .Static chunk :: rest =>
      (toStringTemplateParts st depth rest).map (fun b => chunk ++ b)
  | .Dynamic reference :: rest =>
      (TypeReference.toStringFromBuffer st depth reference).bind (fun r =>
        (toStringTemplateParts st depth rest).map (fun b =>
          ("$\x7b") ++ r ++ ("\x7d") ++ b))
termination_by l => sizeOf l
decreasing_by all_goals (simp_wf <;> omega)

/-- `TypeReferenceFunctionParameters::to_string_from_buffer`
(source lines 788-813): the required bucket (each `name?` then `": "` then the
type), then the optional bucket with `"?: "`, then `"..."`, the rest
parameter's name and its type.  Note the source writes no separators between
parameters, no parentheses, and no colon for the rest parameter. -/
def toStringParams (st : ToStringSettings) (depth : Nat) :
    TypeReferenceFunctionParameters → Option String
  | ⟨parameters, optionalParameters, restParameter, _⟩ =>
      (toStringParamGroup st depth (": ") parameters).bind (fun a =>
        (toStringParamGroup st depth ("?: ") optionalParameters).bind (fun b =>
          (match restParameter with
           | some ⟨_, _, name, ty⟩ =>
               (TypeReference.toStringFromBuffer st depth ty).map
                 (fun t => ("...") ++ name ++ t)
           | none => some "").map (fun c => a ++ b ++ c)))
termination_by p => sizeOf p
decreasing_by all_goals (simp_wf <;> omega)

/-- One bucket of `TypeReferenceFunctionParameters::to_string_from_buffer`. -/
def toStringParamGroup (st : ToStringSettings) (depth : Nat) (sep : String) :
    List TypeReferenceFunctionParameter → Option String
  | [] => some ""
  | ⟨_, name, ty⟩ :: rest =>
      (TypeReference.toStringFromBuffer st depth ty).bind (fun t =>
        (toStringParamGroup st depth sep rest).map (fun b =>
          (match name with
           | some vf => vf.toText
           | none => "") ++ sep ++ t ++ b))
termination_by l => sizeOf l
decreasing_by all_goals (simp_wf <;> omega)

/-- `TypeCondition::to_string_from_buffer` (source lines 106-124). -/
def toStringCondition (st : ToStringSettings) (depth : Nat) :
    TypeCondition → Option String
  | .Extends tested extends_ _ =>
      (TypeReference.toStringFromBuffer st depth tested).bind (fun a =>
        (TypeReference.toStringFromBuffer st depth extends_).map (fun b =>
          a ++ (" extends ") ++ b))
  | .Is tested is_ _ =>
      (TypeReference.toStringFromBuffer st depth tested).bind (fun a =>
        (TypeReference.toStringFromBuffer st depth is_).map (fun b =>
          a ++ (" is ") ++ b))
termination_by c => sizeOf c
decreasing_by all_goals (simp_wf <;> omega)

/-- `TypeConditionResult::to_string_from_buffer` (source lines 168-183). -/
def toStringConditionResult (st : ToStringSettings) (depth : Nat) :
    TypeConditionResult → Option String
  | .Infer inferredType _ =>
      (TypeReference.toStringFromBuffer st depth inferredType).map
        (fun i => ("infer ") ++ i)
  | .Reference reference => TypeReference.toStringFromBuffer st depth reference
termination_by r => sizeOf r
decreasing_by all_goals (simp_wf <;> omega)

end

/-! ## Structural equality ignoring spans

The round-trip property of §8 compares trees "structurally ... ignoring
spans"; the Rust derive `PartialEqExtras` with
`partial_eq_ignore_types(Span, TypeId)` does the same.  `teq` ignores every
span and every reserved identity slot, at every level. -/

mutual

def teq : TypeReference → TypeReference → Bool
  | .Name a _, .Name b _ => a == b
  | .NamespacedName a1 a2 _, .NamespacedName b1 b2 _ => a1 == b1 && a2 == b2
  | .NameWithGenericArguments a as _, .NameWithGenericArguments b bs _ =>
      a == b && teqList as bs
  | .Union as, .Union bs => teqList as bs
  | .Intersection as, .Intersection bs => teqList as bs
  | .StringLiteral a _, .StringLiteral b _ => a == b
  | .NumberLiteral a _, .NumberLiteral b _ => a == b
  | .BooleanLiteral a _, .BooleanLiteral b _ => a == b
  | .ArrayLiteral a _, .ArrayLiteral b _ => teq a b
  | .FunctionLiteral tp1 p1 r1 _, .FunctionLiteral tp2 p2 r2 _ =>
      tp1 == tp2 && teqParams p1 p2 && teq r1 r2
  | .ConstructorLiteral _ tp1 p1 r1, .ConstructorLiteral _ tp2 p2 r2 =>
      tp1 == tp2 && teqParams p1 p2 && teq r1 r2
  | .ObjectLiteral m1 _ _, .ObjectLiteral m2 _ _ =>
      (m1.map (fun x => x.1.name)) == (m2.map (fun x => x.1.name))
  | .TupleLiteral m1 _ _, .TupleLiteral m2 _ _ => teqTupleList m1 m2
  | .TemplateLiteral p1 _, .TemplateLiteral p2 _ => teqTemplateList p1 p2
  | .Readonly a _, .Readonly b _ => teq a b
  | .Index a1 a2 _, .Index b1 b2 _ => teq a1 b1 && teq a2 b2
  | .KeyOf a _, .KeyOf b _ => teq a b
  | .ParenthesizedReference a _, .ParenthesizedReference b _ => teq a b
  | .Conditional c1 t1 f1 _, .Conditional c2 t2 f2 _ =>
      teqCondition c1 c2 && teqConditionResult t1 t2 && teqConditionResult f1 f2
  | .Decorated d1 a _, .Decorated d2 b _ => d1.name == d2.name && teq a b
  | .Cursor i1 _, .Cursor i2 _ => i1 == i2
  | _, _ => false
termination_by a _ => sizeOf a
decreasing_by all_goals (simp_wf <;> omega)

def teqList : List TypeReference → List TypeReference → Bool
  | [], [] => true
  | a :: as, b :: bs => teq a b && teqList as bs
  | _, _ => false
termination_by a _ => sizeOf a
decreasing_by all_goals (simp_wf <;> omega)

def teqTupleList : List TupleElement → List TupleElement → Bool
  | [], [] => true
  | .NonSpread n1 t1 :: as, .NonSpread n2 t2 :: bs =>
      n1 == n2 && teq t1 t2 && teqTupleList as bs
  | .Spread n1 t1 :: as, .Spread n2 t2 :: bs =>
      n1 == n2 && teq t1 t2 && teqTupleList as bs
  | _, _ => false
termination_by a _ => sizeOf a
decreasing_by all_goals (simp_wf <;> omega)

def teqTemplateList : List TemplatePart → List TemplatePart → Bool
  | [], [] => true
  | .Static s1 :: as, .Static s2 :: bs => s1 == s2 && teqTemplateList as bs
  | .Dynamic t1 :: as, .Dynamic t2 :: bs => teq t1 t2 && teqTemplateList as bs
  | _, _ => false
termination_by a _ => sizeOf a
decreasing_by all_goals (simp_wf <;> omega)

def teqParams : TypeReferenceFunctionParameters → TypeReferenceFunctionParameters → Bool
  | ⟨p1, o1, r1, _⟩, ⟨p2, o2, r2, _⟩ =>
      teqParamList p1 p2 && teqParamList o1 o2 &&
      (match r1, r2 with
       | none, none => true
       | some ⟨_, _, n1, t1⟩, some ⟨_, _, n2, t2⟩ => n1 == n2 && teq t1 t2
       | _, _ => false)
termination_by a _ => sizeOf a
decreasing_by all_goals (simp_wf <;> omega)

def teqParamList : List TypeReferenceFunctionParameter → List TypeReferenceFunctionParameter → Bool
  | [], [] => true
  | ⟨_, n1, t1⟩ :: as, ⟨_, n2, t2⟩ :: bs =>
      (match n1, n2 with
       | none, none => true
       | some (.Name a _), some (.Name b _) => a == b
       | _, _ => false) && teq t1 t2 && teqParamList as bs
  | _, _ => false
termination_by a _ => sizeOf a
decreasing_by all_goals (simp_wf <;> omega)

def teqCondition : TypeCondition → TypeCondition → Bool
  | .Extends a1 a2 _, .Extends b1 b2 _ => teq a1 b1 && teq a2 b2
  | .Is a1 a2 _, .Is b1 b2 _ => teq a1 b1 && teq a2 b2
  | _, _ => false
termination_by a _ => sizeOf a
decreasing_by all_goals (simp_wf <;> omega)

def teqConditionResult : TypeConditionResult → TypeConditionResult → Bool
  | .Infer a _, .Infer b _ => teq a b
  | .Reference a, .Reference b => teq a b
  | _, _ => false
termination_by a _ => sizeOf a
decreasing_by all_goals (simp_wf <;> omega)

end

/-! ## The printer's fault set

`containsBad ec t` scans `t` for the printer's fault cases: `NamespacedName`,
`Index` (indexed access) and `KeyOf` nodes (all `unimplemented!()`), and
`Cursor` (Placeholder) nodes when `expect_cursors` is `ec = false`. -/

mutual

def containsBad (ec : Bool) : TypeReference → Bool
  | .NamespacedName _ _ _ => true
  | .Index _ _ _ => true
  | .KeyOf _ _ => true
  | .Cursor _ _ => !ec
  | .Name _ _ => false
  | .StringLiteral _ _ => false
  | .NumberLiteral _ _ => false
  | .BooleanLiteral _ _ => false
  | .NameWithGenericArguments _ args _ => containsBadList ec args
  | .Union ms => containsBadList ec ms
  | .Intersection ms => containsBadList ec ms
  | .ArrayLiteral t _ => containsBad ec t
  | .FunctionLiteral _ params ret _ => containsBadParams ec params || containsBad ec ret
  | .ConstructorLiteral _ _ params ret => containsBadParams ec params || containsBad ec ret
  | .ObjectLiteral _ _ _ => false
  | .TupleLiteral ms _ _ => containsBadTupleList ec ms
  | .TemplateLiteral ps _ => containsBadTemplateList ec ps
  | .Readonly t _ => containsBad ec t
  | .ParenthesizedReference t _ => containsBad ec t
  | .Conditional c rt rf _ =>
      containsBadCondition ec c || containsBadConditionResult ec rt ||
      containsBadConditionResult ec rf
  | .Decorated _ t _ => containsBad ec t
termination_by t => sizeOf t
decreasing_by all_goals (simp_wf <;> omega)

def containsBadList (ec : Bool) : List TypeReference → Bool
  | [] => false
  | t :: rest => containsBad ec t || containsBadList ec rest
termination_by l => sizeOf l
decreasing_by all_goals (simp_wf <;> omega)

def containsBadTupleList (ec : Bool) : List TupleElement → Bool
  | [] => false
  | .NonSpread _ t :: rest => containsBad ec t || containsBadTupleList ec rest
  | .Spread _ t :: rest => containsBad ec t || containsBadTupleList ec rest
termination_by l => sizeOf l
decreasing_by all_goals (simp_wf <;> omega)

def containsBadTemplateList (ec : Bool) : List TemplatePart → Bool
  | [] => false
  | .Static _ :: rest => containsBadTemplateList ec rest
  | .Dynamic t :: rest => containsBad ec t || containsBadTemplateList ec rest
termination_by l => sizeOf l
decreasing_by all_goals (simp_wf <;> omega)

def containsBadParams (ec : Bool) : TypeReferenceFunctionParameters → Bool
  | ⟨ps, os, rp, _⟩ =>
      containsBadParamList ec ps || containsBadParamList ec os ||
      (match rp with
       | some ⟨_, _, _, t⟩ => containsBad ec t
       | none => false)
termination_by p => sizeOf p
decreasing_by all_goals (simp_wf <;> omega)

def containsBadParamList (ec : Bool) : List TypeReferenceFunctionParameter → Bool
  | [] => false
  | ⟨_, _, t⟩ :: rest => containsBad ec t || containsBadParamList ec rest
termination_by l => sizeOf l
decreasing_by all_goals (simp_wf <;> omega)

def containsBadCondition (ec : Bool) : TypeCondition → Bool
  | .Extends a b _ => containsBad ec a || containsBad ec b
  | .Is a b _ => containsBad ec a || containsBad ec b
termination_by c => sizeOf c
decreasing_by all_goals (simp_wf <;> omega)

def containsBadConditionResult (ec : Bool) : TypeConditionResult → Bool
  | .Infer t _ => containsBad ec t
  | .Reference t => containsBad ec t
termination_by r => sizeOf r
decreasing_by all_goals (simp_wf <;> omega)

end

/-! ## Helper lemmas shared by the claim theorems -/

/-- `Except.ok` bind reduction (the monadic `?` chains of the embedding). -/
@[simp] theorem exceptBindOk {α β : Type} (a : α) (f : α → PRes β) :
    (Except.ok a >>= f : PRes β) = f a := rfl

/-- `Except.error` bind reduction. -/
@[simp] theorem exceptBindErr {α β : Type} (e : PFail) (f : α → PRes β) :
    ((Except.error e : PRes α) >>= f : PRes β) = Except.error e := rfl

/-- Whether a reference is a bare `Name` atom. -/
def TypeReference.isBareName : TypeReference → Bool
  | .Name _ _ => true
  | _ => false

/-- The union-collection loop only ever appends to its accumulator. -/
theorem unionCollectExtendsAcc :
    ∀ fuel acc toks ms rest, unionCollect fuel acc toks = .ok (ms, rest) →
      ∃ extra, ms = acc ++ extra := by
  intro fuel
  induction fuel with
  | zero => intro acc toks ms rest h; simp [unionCollect] at h
  | succ fuel ih =>
      intro acc toks ms rest h
      cases toks with
      | nil =>
          simp only [unionCollect] at h
          cases h
          exact ⟨[], by simp⟩
      | cons hd tl =>
          obtain ⟨t, sp⟩ := hd
          cases t
          case BitwiseOr =>
              simp only [unionCollect] at h
              cases h2 : TypeReference.fromReaderWithConfig fuel tl true with
              | ok r =>
                  obtain ⟨m, r2⟩ := r
                  rw [h2] at h
                  simp only [exceptBindOk] at h
                  obtain ⟨extra, he⟩ := ih _ _ _ _ h
                  exact ⟨[m] ++ extra, by simp [he]⟩
              | error e =>
                  rw [h2] at h
                  simp only [exceptBindErr] at h
                  cases h
          all_goals (simp only [unionCollect] at h; cases h; exact ⟨[], by simp⟩)

/-! ## The printer's fault set: `to_string_from_buffer` faults exactly on
`NamespacedName` / `Index` / `KeyOf` nodes and on `Cursor` nodes when
`expect_cursors` is off (claim C3 machinery). -/

mutual

theorem printFaultRef (st : ToStringSettings) (depth : Nat) :
    ∀ t : TypeReference,
      (TypeReference.toStringFromBuffer st depth t).isNone = containsBad st.expectCursors t
  | .Name _ _ => by simp [TypeReference.toStringFromBuffer, containsBad]
  | .NamespacedName _ _ _ => by simp [TypeReference.toStringFromBuffer, containsBad]
  | .NameWithGenericArguments n args p => by
      have ih := printFaultList st depth (", ") args
      cases h : toStringList st depth (", ") args <;>
        simp_all [TypeReference.toStringFromBuffer, containsBad]
  | .Union ms => by
      have ih := printFaultList st depth (" | ") ms
      simp_all [TypeReference.toStringFromBuffer, containsBad]
  | .Intersection ms => by
      have ih := printFaultList st depth (" & ") ms
      simp_all [TypeReference.toStringFromBuffer, containsBad]
  | .StringLiteral _ _ => by simp [TypeReference.toStringFromBuffer, containsBad]
  | .NumberLiteral _ _ => by simp [TypeReference.toStringFromBuffer, containsBad]
  | .BooleanLiteral _ _ => by simp [TypeReference.toStringFromBuffer, containsBad]
  | .ArrayLiteral t p => by
      have ih := printFaultRef st depth t
      cases h : TypeReference.toStringFromBuffer st depth t <;>
        simp_all [TypeReference.toStringFromBuffer, containsBad]
  | .FunctionLiteral tps params ret _ => by
      have ih1 := printFaultParams st depth params
      have ih2 := printFaultRef st depth ret
      cases tps <;>
        cases h1 : toStringParams st depth params <;>
          cases h2 : TypeReference.toStringFromBuffer st depth ret <;>
            simp_all [TypeReference.toStringFromBuffer, containsBad]
  | .ConstructorLiteral _ tps params ret => by
      have ih1 := printFaultParams st depth params
      have ih2 := printFaultRef st depth ret
      cases tps <;>
        cases h1 : toStringParams st depth params <;>
          cases h2 : TypeReference.toStringFromBuffer st depth ret <;>
            simp_all [TypeReference.toStringFromBuffer, containsBad]
  | .ObjectLiteral _ _ _ => by simp [TypeReference.toStringFromBuffer, containsBad]
  | .TupleLiteral ms _ _ => by
      have ih := printFaultTuple st depth ms
      cases h : toStringTupleMembers st depth ms <;>
        simp_all [TypeReference.toStringFromBuffer, containsBad]
  | .TemplateLiteral ps _ => by
      have ih := printFaultTemplate st depth ps
      cases h : toStringTemplateParts st depth ps <;>
        simp_all [TypeReference.toStringFromBuffer, containsBad]
  | .Readonly t _ => by
      have ih := printFaultRef st depth t
      cases h : TypeReference.toStringFromBuffer st depth t <;>
        simp_all [TypeReference.toStringFromBuffer, containsBad]
  | .Index _ _ _ => by simp [TypeReference.toStringFromBuffer, containsBad]
  | .KeyOf _ _ => by simp [TypeReference.toStringFromBuffer, containsBad]
  | .ParenthesizedReference t _ => by
      have ih := printFaultRef st depth t
      cases h : TypeReference.toStringFromBuffer st depth t <;>
        simp_all [TypeReference.toStringFromBuffer, containsBad]
  | .Conditional c rt rf _ => by
      have ih1 := printFaultCondition st depth c
      have ih2 := printFaultConditionResult st depth rt
      have ih3 := printFaultConditionResult st depth rf
      cases h1 : toStringCondition st depth c <;>
        cases h2 : toStringConditionResult st depth rt <;>
          cases h3 : toStringConditionResult st depth rf <;>
            simp_all [TypeReference.toStringFromBuffer, containsBad]
  | .Decorated _ t _ => by
      have ih := printFaultRef st depth t
      cases h : TypeReference.toStringFromBuffer st depth t <;>
        simp_all [TypeReference.toStringFromBuffer, containsBad]
  | .Cursor _ _ => by
      cases hec : st.expectCursors <;>
        simp [TypeReference.toStringFromBuffer, containsBad, hec]
termination_by t => sizeOf t
decreasing_by all_goals (simp_wf <;> omega)

theorem printFaultList (st : ToStringSettings) (depth : Nat) (sep : String) :
    ∀ l : List TypeReference,
      (toStringList st depth sep l).isNone = containsBadList st.expectCursors l
  | [] => by simp [toStringList, containsBadList]
  | [x] => by
      have ih := printFaultRef st depth x
      simp_all [toStringList, containsBadList]
  | x :: y :: rest => by
      have ih1 := printFaultRef st depth x
      have ih2 := printFaultList st depth sep (y :: rest)
      cases h1 : TypeReference.toStringFromBuffer st depth x <;>
        cases h2 : toStringList st depth sep (y :: rest) <;>
          simp_all [toStringList, containsBadList]
termination_by l => sizeOf l
decreasing_by all_goals (simp_wf <;> omega)

theorem printFaultTuple (st : ToStringSettings) (depth : Nat) :
    ∀ l : List TupleElement,
      (toStringTupleMembers st depth l).isNone = containsBadTupleList st.expectCursors l
  | [] => by simp [toStringTupleMembers, containsBadTupleList]
  | [m] => by
      have ih := printFaultTupleMember st depth m
      cases m <;> simp_all [toStringTupleMembers, containsBadTupleList, containsBad,
        toStringTupleMember]
  | m :: y :: rest => by
      have ih1 := printFaultTupleMember st depth m
      have ih2 := printFaultTuple st depth (y :: rest)
      cases h1 : toStringTupleMember st depth m <;>
        cases h2 : toStringTupleMembers st depth (y :: rest) <;>
          cases m <;>
            simp_all [toStringTupleMembers, containsBadTupleList, toStringTupleMember]
termination_by l => sizeOf l
decreasing_by all_goals (simp_wf <;> omega)

theorem printFaultTupleMember (st : ToStringSettings) (depth : Nat) :
    ∀ m : TupleElement,
      (toStringTupleMember st depth m).isNone =
        (match m with
         | .NonSpread _ t => containsBad st.expectCursors t
         | .Spread _ t => containsBad st.expectCursors t)
  | .NonSpread name t => by
      have ih := printFaultRef st depth t
      cases name <;>
        cases h : TypeReference.toStringFromBuffer st depth t <;>
          simp_all [toStringTupleMember]
  | .Spread name t => by
      have ih := printFaultRef st depth t
      cases name <;>
        cases h : TypeReference.toStringFromBuffer st depth t <;>
          simp_all [toStringTupleMember]
termination_by m => sizeOf m
decreasing_by all_goals (simp_wf <;> omega)

theorem printFaultTemplate (st : ToStringSettings) (depth : Nat) :
    ∀ l : List TemplatePart,
      (toStringTemplateParts st depth l).isNone = containsBadTemplateList st.expectCursors l
  | [] => by simp [toStringTemplateParts, containsBadTemplateList]
  | .Static chunk :: rest => by
      have ih := printFaultTemplate st depth rest
      cases h : toStringTemplateParts st depth rest <;>
        simp_all [toStringTemplateParts, containsBadTemplateList]
  | .Dynamic t :: rest => by
      have ih1 := printFaultRef st depth t
      have ih2 := printFaultTemplate st depth rest
      cases h1 : TypeReference.toStringFromBuffer st depth t <;>
        cases h2 : toStringTemplateParts st depth rest <;>
          simp_all [toStringTemplateParts, containsBadTemplateList]
termination_by l => sizeOf l
decreasing_by all_goals (simp_wf <;> omega)

theorem printFaultParams (st : ToStringSettings) (depth : Nat) :
    ∀ p : TypeReferenceFunctionParameters,
      (toStringParams st depth p).isNone = containsBadParams st.expectCursors p
  | ⟨ps, os, rp, pos⟩ => by
      have ih1 := printFaultParamGroup st depth (": ") ps
      have ih2 := printFaultParamGroup st depth ("?: ") os
      cases h1 : toStringParamGroup st depth (": ") ps <;>
        cases h2 : toStringParamGroup st depth ("?: ") os <;>
          (match rp with
           | none => simp_all [toStringParams, containsBadParams]
           | some ⟨decs, ssp, nm, ty⟩ =>
             have ih3 := printFaultRef st depth ty
             cases h3 : TypeReference.toStringFromBuffer st depth ty <;>
               simp_all [toStringParams, containsBadParams])
termination_by p => sizeOf p
decreasing_by all_goals (simp_wf <;> omega)

theorem printFaultParamGroup (st : ToStringSettings) (depth : Nat) (sep : String) :
    ∀ l : List TypeReferenceFunctionParameter,
      (toStringParamGroup st depth sep l).isNone = containsBadParamList st.expectCursors l
  | [] => by simp [toStringParamGroup, containsBadParamList]
  | ⟨decs, nm, ty⟩ :: rest => by
      have ih1 := printFaultRef st depth ty
      have ih2 := printFaultParamGroup st depth sep rest
      cases nm <;>
        cases h1 : TypeReference.toStringFromBuffer st depth ty <;>
          cases h2 : toStringParamGroup st depth sep rest <;>
            simp_all [toStringParamGroup, containsBadParamList]
termination_by l => sizeOf l
decreasing_by all_goals (simp_wf <;> omega)

theorem printFaultCondition (st : ToStringSettings) (depth : Nat) :
    ∀ c : TypeCondition,
      (toStringCondition st depth c).isNone = containsBadCondition st.expectCursors c
  | .Extends a b _ => by
      have ih1 := printFaultRef st depth a
      have ih2 := printFaultRef st depth b
      cases h1 : TypeReference.toStringFromBuffer st depth a <;>
        cases h2 : TypeReference.toStringFromBuffer st depth b <;>
          simp_all [toStringCondition, containsBadCondition]
  | .Is a b _ => by
      have ih1 := printFaultRef st depth a
      have ih2 := printFaultRef st depth b
      cases h1 : TypeReference.toStringFromBuffer st depth a <;>
        cases h2 : TypeReference.toStringFromBuffer st depth b <;>
          simp_all [toStringCondition, containsBadCondition]
termination_by c => sizeOf c
decreasing_by all_goals (simp_wf <;> omega)

theorem printFaultConditionResult (st : ToStringSettings) (depth : Nat) :
    ∀ r : TypeConditionResult,
      (toStringConditionResult st depth r).isNone =
        containsBadConditionResult st.expectCursors r
  | .Infer t _ => by
      have ih := printFaultRef st depth t
      cases h : TypeReference.toStringFromBuffer st depth t <;>
        simp_all [toStringConditionResult, containsBadConditionResult]
  | .Reference t => by
      have ih := printFaultRef st depth t
      simp_all [toStringConditionResult, containsBadConditionResult]
termination_by r => sizeOf r
decreasing_by all_goals (simp_wf <;> omega)

end

/-! ## Claim theorems -/

/-- C1: parsing `"Array<Array<Array<T>>>"` does NOT succeed.  The lexer
(modelled from the spec) merges the three closing `>` characters into one
unsigned-shift-right token spanning `[19,22]`.  The innermost argument list
narrows it once, to a one-character closer `[19,20]`, but mislabels the
two-character leftover `[20,22]` as a single `CloseChevron`; the middle list
consumes that leftover whole as its closer, and the outermost list finds the
cursor exhausted, so the parse returns `LexError`.  The second conjunct shows
the two-level case, which needs only one split, parses exactly as the source's
own test expects. -/
theorem c1_triple_nested_generic_parse_fails :
    parseStr 32 ("Array<Array<Array<T>>>") = .error (.err parseLexingError) ∧
    parseStr 32 ("Array<Array<string>>") =
      .ok (.NameWithGenericArguments ("Array")
            [.NameWithGenericArguments ("Array") [.Name ("string") ⟨12, 18, 0⟩] ⟨6, 19, 0⟩]
            ⟨0, 20, 0⟩, []) :=
  ⟨rfl, rfl⟩

/-- C7: parsing `"[]"` does NOT succeed: the tuple loop's entry check peeks
for `CloseBrace` (`}`) instead of `CloseBracket` (`]`), so on `[]` the loop
tries to parse an element out of the `]` token and fails with the
identifier-expected error at the `]`'s span.  The second conjunct shows the
claimed per-iteration behaviour (optional `name:` prefix by one-token
lookahead, comma separation) on a non-empty tuple. -/
theorem c7_empty_tuple_parse_fails :
    parseStr 32 ("[]") = .error (.err ⟨.ExpectedIdent ("type reference"), ⟨1, 2, 0⟩⟩) ∧
    parseStr 32 ("[number, x: string]") =
      .ok (.TupleLiteral
            [.NonSpread none (.Name ("number") ⟨1, 7, 0⟩),
             .NonSpread (some ("x")) (.Name ("string") ⟨12, 18, 0⟩)]
            TypeId.fresh ⟨0, 19, 0⟩, []) :=
  ⟨rfl, rfl⟩

/-- C8 counterexample: after a non-`Name` atom, a following `.` does NOT make
the parse return a parse error — the code panics (`panic!()`), modelled as
`PFail.crash`, which is not a returned `ParseError`. -/
theorem c8_non_name_dot_panics :
    parseStr 32 ("true.C") = .error .crash ∧
    ∀ e : ParseError, parseStr 32 ("true.C") ≠ .error (.err e) := by
  refine ⟨rfl, ?_⟩
  intro e h
  rw [show parseStr 32 ("true.C") = .error .crash from rfl] at h
  cases h

/-- C8 (amended): when the token following the atom is a single `.`, a bare
`Name` atom is promoted to `NamespacedName` with the next identifier; any
other atom makes the parser panic (crash) rather than return a parse error. -/
theorem c8_dot_promotion_behaviour (fuel : Nat) (flag : Bool)
    (reference : TypeReference) (dotSpan : Span) (rest : List Tok) :
    (∀ name sp, reference = .Name name sp →
      stageTwoThree (fuel + 1) flag reference (⟨.Dot, dotSpan⟩ :: rest) =
        match rest with
        | tk :: rest2 =>
            match tokenAsIdentifier tk ("namespace name") with
            | .ok (m, endSp) => .ok (.NamespacedName name m (sp.union endSp), rest2)
            | .error e => .error e
        | [] => .error .crash) ∧
    (reference.isBareName = false →
      stageTwoThree (fuel + 1) flag reference (⟨.Dot, dotSpan⟩ :: rest) =
        .error .crash) := by
  constructor
  · rintro name sp rfl
    cases rest with
    | nil => simp [stageTwoThree]
    | cons tk rest2 =>
        cases h : tokenAsIdentifier tk ("namespace name") with
        | ok r => obtain ⟨m, endSp⟩ := r; simp [stageTwoThree, h]
        | error e => simp [stageTwoThree, h]
  · intro h
    cases reference <;> simp_all [stageTwoThree, TypeReference.isBareName]

/-- Witness for C8's theorem: `A . B` promotes to `NamespacedName A B`; a
boolean-literal atom followed by `.` crashes. -/
theorem c8_dot_promotion_behaviour_witness :
    stageTwoThree (30 + 1) false (.Name ("A") ⟨0, 1, 0⟩)
        [⟨.Dot, ⟨1, 2, 0⟩⟩, ⟨.Identifier ("B"), ⟨2, 3, 0⟩⟩] =
      .ok (.NamespacedName ("A") ("B") ⟨0, 3, 0⟩, []) ∧
    stageTwoThree (30 + 1) false (.BooleanLiteral true ⟨0, 4, 0⟩)
        [⟨.Dot, ⟨4, 5, 0⟩⟩, ⟨.Identifier ("C"), ⟨5, 6, 0⟩⟩] =
      .error .crash := by
  constructor
  · rw [(c8_dot_promotion_behaviour 30 false (.Name ("A") ⟨0, 1, 0⟩) ⟨1, 2, 0⟩
      [⟨.Identifier ("B"), ⟨2, 3, 0⟩⟩]).1 ("A") ⟨0, 1, 0⟩ rfl]
    rfl
  · exact (c8_dot_promotion_behaviour 30 false (.BooleanLiteral true ⟨0, 4, 0⟩) ⟨4, 5, 0⟩
      [⟨.Identifier ("C"), ⟨5, 6, 0⟩⟩]).2 rfl

/-- C9: when the token following the atom is `<`, a bare `Name` atom is
promoted through the generic-argument-list parser to
`NameWithGenericArguments`; any other atom yields the
`TypeArgumentsNotValidOnReference` error carrying the chevron's position. -/
theorem c9_generic_promotion_iff_bare_name (fuel : Nat) (flag : Bool)
    (reference : TypeReference) (chevronPos : Span) (rest : List Tok) :
    (∀ name sp, reference = .Name name sp →
      stageTwoThree (fuel + 1) flag reference (⟨.OpenChevron, chevronPos⟩ :: rest) =
        match genericArgsLoop fuel [] rest flag with
        | .ok (args, endSpan, rest2) =>
            .ok (.NameWithGenericArguments name args (sp.union endSpan), rest2)
        | .error e => .error e) ∧
    (reference.isBareName = false →
      stageTwoThree (fuel + 1) flag reference (⟨.OpenChevron, chevronPos⟩ :: rest) =
        .error (.err ⟨.TypeArgumentsNotValidOnReference, chevronPos⟩)) := by
  constructor
  · rintro name sp rfl
    cases h : genericArgsLoop fuel [] rest flag with
    | ok r =>
        obtain ⟨args, endSpan, rest2⟩ := r
        simp [stageTwoThree, h]
    | error e => simp [stageTwoThree, h]
  · intro h
    cases reference <;> simp_all [stageTwoThree, TypeReference.isBareName]

/-- Witness for C9's theorem: `A<T>` promotes to a generic instantiation; a
boolean-literal atom followed by `<` yields `TypeArgumentsNotValidOnReference`
at the chevron's span. -/
theorem c9_generic_promotion_iff_bare_name_witness :
    stageTwoThree (30 + 1) false (.Name ("A") ⟨0, 1, 0⟩)
        [⟨.OpenChevron, ⟨1, 2, 0⟩⟩, ⟨.Identifier ("T"), ⟨2, 3, 0⟩⟩, ⟨.CloseChevron, ⟨3, 4, 0⟩⟩] =
      .ok (.NameWithGenericArguments ("A") [.Name ("T") ⟨2, 3, 0⟩] ⟨0, 4, 0⟩, []) ∧
    stageTwoThree (30 + 1) false (.BooleanLiteral true ⟨0, 4, 0⟩) [⟨.OpenChevron, ⟨4, 5, 0⟩⟩] =
      .error (.err ⟨.TypeArgumentsNotValidOnReference, ⟨4, 5, 0⟩⟩) := by
  constructor
  · rw [(c9_generic_promotion_iff_bare_name 30 false (.Name ("A") ⟨0, 1, 0⟩) ⟨1, 2, 0⟩
      [⟨.Identifier ("T"), ⟨2, 3, 0⟩⟩, ⟨.CloseChevron, ⟨3, 4, 0⟩⟩]).1 ("A") ⟨0, 1, 0⟩ rfl]
    rfl
  · exact (c9_generic_promotion_iff_bare_name 30 false (.BooleanLiteral true ⟨0, 4, 0⟩)
      ⟨4, 5, 0⟩ []).2 rfl

/-- C6 counterexample: at top level (stop-flag unset), an atom promoted to a
`GenericInstantiation` in stage 2 `return`s immediately: on `"T<A> | B"` the
`|` is NOT consumed and no `Union` is built — the parse yields the bare
generic instantiation with the `|` still unread. -/
theorem c6_promoted_generic_skips_union :
    parseStr 32 ("T<A> | B") =
      .ok (.NameWithGenericArguments ("T") [.Name ("A") ⟨2, 3, 0⟩] ⟨0, 4, 0⟩,
           [⟨.BitwiseOr, ⟨5, 6, 0⟩⟩, ⟨.Identifier ("B"), ⟨7, 8, 0⟩⟩]) := rfl

/-- C6 (amended): for atoms that reach stage 3 (not promoted, not
`readonly`/`keyof`), a following `|` at stop-flag-unset is consumed and the
result is a `Union` collecting the atom plus one or more further operands. -/
theorem c6_union_collection_behaviour (fuel : Nat) (reference : TypeReference)
    (orSpan : Span) (tl : List Tok) :
    (stageThree (fuel + 1) false reference (⟨.BitwiseOr, orSpan⟩ :: tl) =
      match unionCollect fuel [reference] (⟨.BitwiseOr, orSpan⟩ :: tl) with
      | .ok (ms, rest2) => .ok (.Union ms, rest2)
      | .error e => .error e) ∧
    (∀ ms rest2, unionCollect fuel [reference] (⟨.BitwiseOr, orSpan⟩ :: tl) = .ok (ms, rest2) →
      ∃ others, ms = reference :: others ∧ others ≠ []) := by
  constructor
  · cases h : unionCollect fuel [reference] (⟨.BitwiseOr, orSpan⟩ :: tl) with
    | ok r => obtain ⟨ms, rest2⟩ := r; simp [stageThree, h]
    | error e => simp [stageThree, h]
  · intro ms rest2 h
    cases fuel with
    | zero => simp [unionCollect] at h
    | succ fuel =>
        simp only [unionCollect] at h
        cases h2 : TypeReference.fromReaderWithConfig fuel tl true with
        | ok r =>
            obtain ⟨m, r2⟩ := r
            rw [h2] at h
            simp only [exceptBindOk] at h
            obtain ⟨extra, he⟩ := unionCollectExtendsAcc fuel ([reference] ++ [m]) r2 ms rest2 h
            exact ⟨[m] ++ extra, by simp [he], by simp⟩
        | error e =>
            rw [h2] at h
            simp only [exceptBindErr] at h
            cases h

/-- Witness for C6's theorem: `A | B` at stop-flag-unset builds
`Union [A, B]`, and the collected member list extends the atom by a non-empty
tail. -/
theorem c6_union_collection_behaviour_witness :
    stageThree (30 + 1) false (.Name ("A") ⟨0, 1, 0⟩)
        [⟨.BitwiseOr, ⟨2, 3, 0⟩⟩, ⟨.Identifier ("B"), ⟨4, 5, 0⟩⟩] =
      .ok (.Union [.Name ("A") ⟨0, 1, 0⟩, .Name ("B") ⟨4, 5, 0⟩], []) ∧
    (∃ others, [TypeReference.Name ("A") ⟨0, 1, 0⟩, TypeReference.Name ("B") ⟨4, 5, 0⟩] =
      TypeReference.Name ("A") ⟨0, 1, 0⟩ :: others ∧ others ≠ []) := by
  constructor
  · rw [(c6_union_collection_behaviour 30 (.Name ("A") ⟨0, 1, 0⟩) ⟨2, 3, 0⟩
      [⟨.Identifier ("B"), ⟨4, 5, 0⟩⟩]).1]
    rfl
  · exact (c6_union_collection_behaviour 30 (.Name ("A") ⟨0, 1, 0⟩) ⟨2, 3, 0⟩
      [⟨.Identifier ("B"), ⟨4, 5, 0⟩⟩]).2
      [.Name ("A") ⟨0, 1, 0⟩, .Name ("B") ⟨4, 5, 0⟩] [] rfl

/-- C5 counterexample: the argument slots of `generic_arguments_...` are NOT
parsed with the stop-flag forced on — at top level `"T<A | B>"` parses with
the `|` swallowed by the inner argument parse, producing a `Union` argument
(under the claim, the inner parse would have stopped at `|` and the slot's
`|` would have been "resolved by the generic-argument list itself"). -/
theorem c5_inner_parse_swallows_union :
    parseStr 32 ("T<A | B>") =
      .ok (.NameWithGenericArguments ("T")
            [.Union [.Name ("A") ⟨2, 3, 0⟩, .Name ("B") ⟨6, 7, 0⟩]] ⟨0, 8, 0⟩, []) := rfl

/-- C5 (amended): the generic-argument-list parser passes the *enclosing*
stop-flag through to each argument parse unchanged.  With the flag unset the
argument `A | B` is consumed as a `Union` by the inner parse; with the flag
set the inner parse stops at `|`, which the argument list then rejects as an
unexpected token; consequently `"X | T<A | B>"` (whose generic slot inherits
flag = true) fails to parse. -/
theorem c5_flag_passthrough_behaviour :
    genericArgsLoop 30 []
        [⟨.Identifier ("A"), ⟨0, 1, 0⟩⟩, ⟨.BitwiseOr, ⟨2, 3, 0⟩⟩,
         ⟨.Identifier ("B"), ⟨4, 5, 0⟩⟩, ⟨.CloseChevron, ⟨5, 6, 0⟩⟩] false =
      .ok ([.Union [.Name ("A") ⟨0, 1, 0⟩, .Name ("B") ⟨4, 5, 0⟩]], ⟨5, 6, 0⟩, []) ∧
    genericArgsLoop 30 []
        [⟨.Identifier ("A"), ⟨0, 1, 0⟩⟩, ⟨.BitwiseOr, ⟨2, 3, 0⟩⟩,
         ⟨.Identifier ("B"), ⟨4, 5, 0⟩⟩, ⟨.CloseChevron, ⟨5, 6, 0⟩⟩] true =
      .error (.err ⟨.UnexpectedToken [.CloseChevron, .Comma] .BitwiseOr, ⟨2, 3, 0⟩⟩) ∧
    parseStr 32 ("X | T<A | B>") =
      .error (.err ⟨.UnexpectedToken [.CloseChevron, .Comma] .BitwiseOr, ⟨8, 9, 0⟩⟩) :=
  ⟨rfl, rfl, rfl⟩

/-- C4 counterexample: the parameter-list parser does NOT accept further
parameters after a rest parameter: after `...r: T` it breaks out of the loop
and requires `)`, so the following `, x: U` is rejected with an
`UnexpectedToken` error by this parser itself. -/
theorem c4_params_after_rest_rejected :
    parseStr 32 ("(...r: T, x: U) => V") =
      .error (.err ⟨.UnexpectedToken [.CloseParentheses] .Comma, ⟨8, 9, 0⟩⟩) := rfl

/-- C4 (amended): a leading `...` starts the rest parameter — a plain name,
`:`, and a type expression — stored as the single `rest_parameter` with the
required/optional buckets untouched, and the loop stops there; if anything
other than `)` (for instance a `,` introducing a further parameter) follows,
`from_reader_sub_open_parenthesis` itself rejects it with `UnexpectedToken`. -/
theorem c4_rest_parameter_behaviour (fuel : Nat)
    (parameters optionalParameters : List TypeReferenceFunctionParameter)
    (restParameter : Option TypeReferenceSpreadFunctionParameter)
    (spreadSpan : Span) (tk : Tok) (colonSpan : Span) (rest4 : List Tok)
    (name : String) (nameSpan : Span)
    (h1 : tokenAsIdentifier tk ("spread function parameter") = .ok (name, nameSpan)) :
    (paramsLoop (fuel + 2) parameters optionalParameters restParameter
        (⟨.Spread, spreadSpan⟩ :: tk :: ⟨.Colon, colonSpan⟩ :: rest4) =
      match TypeReference.fromReaderWithConfig (fuel + 1) rest4 false with
      | .ok (ty, rest5) =>
          .ok (parameters, optionalParameters, some ⟨[], spreadSpan, name, ty⟩, rest5)
      | .error e => .error e) ∧
    (∀ openParenSpan ty commaSpan more,
      TypeReference.fromReaderWithConfig (fuel + 1) rest4 false =
          .ok (ty, ⟨.Comma, commaSpan⟩ :: more) →
      TypeReferenceFunctionParameters.fromReaderSubOpenParenthesis (fuel + 3)
          (⟨.Spread, spreadSpan⟩ :: tk :: ⟨.Colon, colonSpan⟩ :: rest4) openParenSpan =
        .error (.err ⟨.UnexpectedToken [.CloseParentheses] .Comma, commaSpan⟩)) := by
  have hloop : ∀ ps os rp, paramsLoop (fuel + 2) ps os rp
      (⟨.Spread, spreadSpan⟩ :: tk :: ⟨.Colon, colonSpan⟩ :: rest4) =
      match TypeReference.fromReaderWithConfig (fuel + 1) rest4 false with
      | .ok (ty, rest5) => .ok (ps, os, some ⟨[], spreadSpan, name, ty⟩, rest5)
      | .error e => .error e := by
    intro ps os rp
    cases h2 : TypeReference.fromReaderWithConfig (fuel + 1) rest4 false with
    | ok r =>
        obtain ⟨ty, rest5⟩ := r
        simp [paramsLoop, skipComments, decoratorsLoop, h1, expectNext, h2]
    | error e =>
        simp [paramsLoop, skipComments, decoratorsLoop, h1, expectNext, h2]
  refine ⟨hloop parameters optionalParameters restParameter, ?_⟩
  intro openParenSpan ty commaSpan more h2
  simp only [TypeReferenceFunctionParameters.fromReaderSubOpenParenthesis,
    hloop ([]) ([]) none, h2]
  simp [expectNext]

/-- Witness for C4's theorem: the parameter list `(...r: T, x: U)` is rejected
at the comma following the rest parameter. -/
theorem c4_rest_parameter_behaviour_witness :
    TypeReferenceFunctionParameters.fromReaderSubOpenParenthesis (29 + 3)
        [⟨.Spread, ⟨1, 4, 0⟩⟩, ⟨.Identifier ("r"), ⟨4, 5, 0⟩⟩, ⟨.Colon, ⟨5, 6, 0⟩⟩,
         ⟨.Identifier ("T"), ⟨7, 8, 0⟩⟩, ⟨.Comma, ⟨8, 9, 0⟩⟩, ⟨.Identifier ("x"), ⟨10, 11, 0⟩⟩,
         ⟨.Colon, ⟨11, 12, 0⟩⟩, ⟨.Identifier ("U"), ⟨13, 14, 0⟩⟩, ⟨.CloseParentheses, ⟨14, 15, 0⟩⟩]
        ⟨0, 1, 0⟩ =
      .error (.err ⟨.UnexpectedToken [.CloseParentheses] .Comma, ⟨8, 9, 0⟩⟩) := by
  exact (c4_rest_parameter_behaviour 29 [] [] none ⟨1, 4, 0⟩ ⟨.Identifier ("r"), ⟨4, 5, 0⟩⟩
      ⟨5, 6, 0⟩
      [⟨.Identifier ("T"), ⟨7, 8, 0⟩⟩, ⟨.Comma, ⟨8, 9, 0⟩⟩, ⟨.Identifier ("x"), ⟨10, 11, 0⟩⟩,
       ⟨.Colon, ⟨11, 12, 0⟩⟩, ⟨.Identifier ("U"), ⟨13, 14, 0⟩⟩, ⟨.CloseParentheses, ⟨14, 15, 0⟩⟩]
      ("r") ⟨4, 5, 0⟩ rfl).2 ⟨0, 1, 0⟩ (.Name ("T") ⟨7, 8, 0⟩) ⟨8, 9, 0⟩
      [⟨.Identifier ("x"), ⟨10, 11, 0⟩⟩, ⟨.Colon, ⟨11, 12, 0⟩⟩, ⟨.Identifier ("U"), ⟨13, 14, 0⟩⟩,
       ⟨.CloseParentheses, ⟨14, 15, 0⟩⟩] rfl

/-- C3: printing faults (returns `none`, modelling the Rust `panic!` /
`unimplemented!()`) exactly when the tree contains a `NamespacedName`,
`Index` (indexed access) or `KeyOf` node, or a `Cursor` (Placeholder) node
while `expect_cursors` is off; every tree free of those four cases prints
without faulting. -/
theorem c3_printer_faults_iff_bad_node (st : ToStringSettings) (depth : Nat)
    (t : TypeReference) :
    TypeReference.toStringFromBuffer st depth t = none ↔
      containsBad st.expectCursors t = true := by
  have h := printFaultRef st depth t
  constructor
  · intro hn; rw [hn] at h; simpa using h.symm
  · intro hb; rw [hb] at h
    cases hx : TypeReference.toStringFromBuffer st depth t with
    | none => rfl
    | some v => rw [hx] at h; simp at h

/-- C10: with `expect_cursors` on, printing a `Cursor` (Placeholder) node
writes no characters at all — it renders as the empty string; in context, the
placeholder subtree contributes nothing to the output. -/
theorem c10_cursor_prints_nothing (id : CursorId) (sp : Span) (depth : Nat) :
    TypeReference.toStringFromBuffer ⟨true⟩ depth (.Cursor id sp) = some "" ∧
    TypeReference.toStringFromBuffer ⟨true⟩ depth
        (.Decorated ⟨("d"), ⟨0, 1, 0⟩⟩ (.Cursor id sp) ⟨0, 1, 0⟩) = some ("@d ") := by
  constructor
  · simp [TypeReference.toStringFromBuffer]
  · simp [TypeReference.toStringFromBuffer, Decorator.toText]

/-- C2 counterexample: the round trip fails on arrow-sugar function types.
`parse("T => T")` yields a one-parameter function literal; printing it emits
`": T => T"` (the parameter printer writes `": "` before the anonymous
parameter and no parentheses), and reparsing that text fails at the leading
colon.  So `parse(print(parse(text)))` errors while `parse(text)` succeeds. -/
theorem c2_arrow_sugar_round_trip_fails :
    parseStr 32 ("T => T") =
      .ok (.FunctionLiteral none
            ⟨[⟨[], none, .Name ("T") ⟨0, 1, 0⟩⟩], [], none,
              TypeReference.getPosition (.Name ("T") ⟨0, 1, 0⟩)⟩
            (.Name ("T") ⟨5, 6, 0⟩) TypeId.fresh, []) ∧
    TypeReference.toStringFromBuffer ⟨false⟩ 0
        (.FunctionLiteral none
          ⟨[⟨[], none, .Name ("T") ⟨0, 1, 0⟩⟩], [], none,
            TypeReference.getPosition (.Name ("T") ⟨0, 1, 0⟩)⟩
          (.Name ("T") ⟨5, 6, 0⟩) TypeId.fresh) = some (": T => T") ∧
    parseStr 32 (": T => T") = .error (.err ⟨.ExpectedIdent ("type reference"), ⟨0, 1, 0⟩⟩) := by
  refine ⟨rfl, ?_, rfl⟩
  simp [TypeReference.toStringFromBuffer, toStringParams, toStringParamGroup]

/-! ## Claim C2 machinery: the round-trippable subset

The round-trip claim is settled over the subset of trees built from names,
literals, unions, intersections, generic instantiations, array shorthand and
tuple types.  `rtOk flag t` carries the stop-flag of the parsing context and
encodes the exclusions the counterexamples force: no arrow-sugar function
types, no adjacent closing chevrons (C1's broken `>>>` split), no empty
tuples (C7), no generic instantiation as the first member of a union or
intersection (C6's early return), and no union/intersection directly under a
flagged context (the flag pass-through of C5). -/

/-- A word the modelled lexer reads back as one identifier token that the
parser treats as a name: identifier-shaped and not a keyword. -/
def identOk (n : String) : Bool :=
  match n.data with
  | [] => false
  | c :: cs => identStartChar c && cs.all identChar && (keywordOf n).isNone

/-- A numeric token text: a non-empty digit run. -/
def numOk (raw : String) : Bool :=
  !raw.data.isEmpty && raw.data.all Char.isDigit

/-- String-literal content the printer's fixed double-quoting re-lexes
verbatim. -/
def strOk (s : String) : Bool :=
  s.data.all (fun c => !(c = '"'))

/-- Whether the root is a generic instantiation (the stage-2 promotion that
returns early, claim C6). -/
def isGenericRoot : TypeReference → Bool
  | .NameWithGenericArguments _ _ _ => true
  | _ => false

mutual

/-- Whether the printed form of `t` ends in a closing chevron. -/
def endsChev : TypeReference → Bool
  | .NameWithGenericArguments _ _ _ => true
  | .Union ms => endsChevLast false ms
  | .Intersection ms => endsChevLast false ms
  | _ => false
termination_by t => sizeOf t
decreasing_by all_goals (simp_wf <;> omega)

/-- Whether the last element of a list of members ends in a closing chevron
(`d` is the default for the empty list). -/
def endsChevLast (d : Bool) : List TypeReference → Bool
  | [] => d
  | [t] => endsChev t
  | _ :: rest => endsChevLast d rest
termination_by l => sizeOf l
decreasing_by all_goals (simp_wf <;> omega)

end

mutual

/-- The round-trippable subset, indexed by the stop-flag of the context the
tree would be re-parsed in. -/
def rtOk (flag : Bool) : TypeReference → Bool
  | .Name n _ => identOk n
  | .BooleanLiteral _ _ => true
  | .NumberLiteral (.Number raw) _ => numOk raw
  | .StringLiteral s _ => strOk s
  | .Union ms =>
      !flag &&
      (match ms with
       | m1 :: m2 :: rest =>
           !isGenericRoot m1 && rtOk true m1 && rtOk true m2 && rtList true rest
       | _ => false)
  | .Intersection ms =>
      !flag &&
      (match ms with
       | m1 :: m2 :: rest =>
           !isGenericRoot m1 && rtOk true m1 && rtOk true m2 && rtList true rest
       | _ => false)
  | .NameWithGenericArguments n args _ =>
      identOk n && !endsChevLast false args &&
      (match args with
       | [] => false
       | a :: rest => rtOk flag a && rtList flag rest)
  | .ArrayLiteral t _ => rtArrayInner t
  | .TupleLiteral ms _ _ =>
      (match ms with
       | [] => false
       | e :: rest => rtElem e && rtElems rest)
  | _ => false
termination_by t => sizeOf t
decreasing_by all_goals (simp_wf <;> omega)

/-- Subset condition for every member of a list. -/
def rtList (flag : Bool) : List TypeReference → Bool
  | [] => true
  | t :: rest => rtOk flag t && rtList flag rest
termination_by l => sizeOf l
decreasing_by all_goals (simp_wf <;> omega)

/-- Array-shorthand operands: the atom shapes the suffix loop can follow
(bare names, literals, tuples, further arrays — generic instantiations and
namespaced names return early and never take suffixes). -/
def rtArrayInner : TypeReference → Bool
  | .Name n _ => identOk n
  | .BooleanLiteral _ _ => true
  | .NumberLiteral (.Number raw) _ => numOk raw
  | .StringLiteral s _ => strOk s
  | .ArrayLiteral t _ => rtArrayInner t
  | .TupleLiteral ms _ _ =>
      (match ms with
       | [] => false
       | e :: rest => rtElem e && rtElems rest)
  | _ => false
termination_by t => sizeOf t
decreasing_by all_goals (simp_wf <;> omega)

/-- Subset condition for one tuple element: an optional identifier name and a
type parsed at stop-flag-unset. -/
def rtElem : TupleElement → Bool
  | .NonSpread name t =>
      (match name with
       | some n => identOk n
       | none => true) && rtOk false t
  | .Spread name t =>
      (match name with
       | some n => identOk n
       | none => true) && rtOk false t
termination_by e => sizeOf e
decreasing_by all_goals (simp_wf <;> omega)

/-- Subset condition for a tuple-element list. -/
def rtElems : List TupleElement → Bool
  | [] => true
  | e :: rest => rtElem e && rtElems rest
termination_by l => sizeOf l
decreasing_by all_goals (simp_wf <;> omega)

end

mutual

/-- The token kinds of the printed form of a subset tree. -/
def tokensOf : TypeReference → List TSXToken
  | .Name n _ => [.Identifier n]
  | .BooleanLiteral b _ => [.Keyword (if b then .True else .False)]
  | .NumberLiteral (.Number raw) _ => [.NumberLiteral raw]
  | .StringLiteral s _ => [.DoubleQuotedStringLiteral s]
  | .Union ms =>
      (match ms with
       | [] => []
       | m :: rest => tokensOf m ++ tokensOfTail .BitwiseOr rest)
  | .Intersection ms =>
      (match ms with
       | [] => []
       | m :: rest => tokensOf m ++ tokensOfTail .BitwiseAnd rest)
  | .NameWithGenericArguments n args _ =>
      .Identifier n :: .OpenChevron ::
        ((match args with
          | [] => []
          | a :: rest => tokensOf a ++ tokensOfTail .Comma rest) ++ [.CloseChevron])
  | .ArrayLiteral t _ => tokensOf t ++ [.OpenBracket, .CloseBracket]
  | .TupleLiteral ms _ _ => .OpenBracket :: (tokensOfElems ms ++ [.CloseBracket])
  | _ => []
termination_by t => sizeOf t
decreasing_by all_goals (simp_wf <;> omega)

/-- Token kinds of the remaining members of a separated list, each preceded
by the separator kind. -/
def tokensOfTail (sep : TSXToken) : List TypeReference → List TSXToken
  | [] => []
  | m :: rest => sep :: (tokensOf m ++ tokensOfTail sep rest)
termination_by l => sizeOf l
decreasing_by all_goals (simp_wf <;> omega)

/-- Token kinds of a comma-separated tuple-element list. -/
def tokensOfElems : List TupleElement → List TSXToken
  | [] => []
  | [e] => tokensOfElem e
  | e :: rest => tokensOfElem e ++ .Comma :: tokensOfElems rest
termination_by l => sizeOf l
decreasing_by all_goals (simp_wf <;> omega)

/-- Token kinds of one tuple element. -/
def tokensOfElem : TupleElement → List TSXToken
  | .NonSpread none t => tokensOf t
  | .NonSpread (some n) t => .Identifier n :: .Colon :: tokensOf t
  | .Spread none t => .Spread :: tokensOf t
  | .Spread (some n) t => .Identifier n :: .Colon :: .Spread :: tokensOf t
termination_by e => sizeOf e
decreasing_by all_goals (simp_wf <;> omega)

end

mutual

/-- A fuel bound sufficient for the parser on a subset tree. -/
def minF : TypeReference → Nat
  | .Union ms => minFList ms + 8
  | .Intersection ms => minFList ms + 8
  | .NameWithGenericArguments _ args _ => minFList args + 8
  | .ArrayLiteral t _ => minF t + 2
  | .TupleLiteral ms _ _ => minFElems ms + 8
  | _ => 8
termination_by t => sizeOf t
decreasing_by all_goals (simp_wf <;> omega)

def minFList : List TypeReference → Nat
  | [] => 0
  | t :: rest => minF t + 2 + minFList rest
termination_by l => sizeOf l
decreasing_by all_goals (simp_wf <;> omega)

def minFElems : List TupleElement → Nat
  | [] => 0
  | .NonSpread _ t :: rest => minF t + 4 + minFElems rest
  | .Spread _ t :: rest => minF t + 4 + minFElems rest
termination_by l => sizeOf l
decreasing_by all_goals (simp_wf <;> omega)

end

mutual

/-- The text the canonical printer emits for a subset tree (total function;
`printAgrees` relates it to `to_string_from_buffer`). -/
def printT : TypeReference → String
  | .Name n _ => n
  | .BooleanLiteral b _ => if b then "true" else "false"
  | .NumberLiteral (.Number raw) _ => raw
  | .StringLiteral s _ => ("\"") ++ s ++ ("\"")
  | .Union ms =>
      (match ms with
       | [] => ""
       | m :: rest => printT m ++ printTTail (" | ") rest)
  | .Intersection ms =>
      (match ms with
       | [] => ""
       | m :: rest => printT m ++ printTTail (" & ") rest)
  | .NameWithGenericArguments n args _ =>
      n ++ ("<") ++
        (match args with
         | [] => ""
         | a :: rest => printT a ++ printTTail (", ") rest) ++ (">")
  | .ArrayLiteral t _ => printT t ++ ("[]")
  | .TupleLiteral ms _ _ => ("[") ++ printTElems ms ++ ("]")
  | _ => ""
termination_by t => sizeOf t
decreasing_by all_goals (simp_wf <;> omega)

def printTTail (sep : String) : List TypeReference → String
  | [] => ""
  | m :: rest => sep ++ printT m ++ printTTail sep rest
termination_by l => sizeOf l
decreasing_by all_goals (simp_wf <;> omega)

def printTElems : List TupleElement → String
  | [] => ""
  | [e] => printTElem e
  | e :: rest => printTElem e ++ (", ") ++ printTElems rest
termination_by l => sizeOf l
decreasing_by all_goals (simp_wf <;> omega)

def printTElem : TupleElement → String
  | .NonSpread none t => printT t
  | .NonSpread (some n) t => n ++ (": ") ++ printT t
  | .Spread none t => ("...") ++ printT t
  | .Spread (some n) t => n ++ (": ") ++ ("...") ++ printT t
termination_by e => sizeOf e
decreasing_by all_goals (simp_wf <;> omega)

end

/-- Continuations a subset parse may leave unread: nothing, a separator, a
closing bracket/chevron, or — in a flagged context only — a `|` / `&` owned
by the enclosing expression. -/
def contOk (flag : Bool) : List TSXToken → Bool
  | [] => true
  | .Comma :: _ => true
  | .CloseChevron :: _ => true
  | .CloseBracket :: _ => true
  | .BitwiseOr :: _ => flag
  | .BitwiseAnd :: _ => flag
  | _ :: _ => false

/-- Continuations that trigger none of stage 2's postfix promotions. -/
def postfixFree : List TSXToken → Bool
  | [] => true
  | .Dot :: _ => false
  | .OpenChevron :: _ => false
  | .OpenBracket :: _ => false
  | _ :: _ => true

/-- The atom shapes consumed entirely by stage 1 (no stage-2 promotion, no
suffixes inside). -/
def s1Shape : TypeReference → Bool
  | .Name _ _ => true
  | .BooleanLiteral _ _ => true
  | .NumberLiteral _ _ => true
  | .StringLiteral _ _ => true
  | .TupleLiteral _ _ _ => true
  | _ => false

/-- Strip all array-shorthand layers. -/
def stripA : TypeReference → TypeReference
  | .ArrayLiteral t _ => stripA t
  | t => t

/-- Count the array-shorthand layers. -/
def depthA : TypeReference → Nat
  | .ArrayLiteral t _ => depthA t + 1
  | _ => 0

/-- The token kinds of `k` empty bracket pairs. -/
def suffixKindsN : Nat → List TSXToken
  | 0 => []
  | k + 1 => .OpenBracket :: .CloseBracket :: suffixKindsN k

/-- Wrap `k` array-shorthand layers around a tree (spans as the suffix loop
would not preserve them; `teq` ignores them). -/
def iterArray : Nat → TypeReference → TypeReference
  | 0, t => t
  | k + 1, t => iterArray k (.ArrayLiteral t ⟨0, 0, 0⟩)

/-- The first kinds a subset tree's token list can start with. -/
def goodHead : TSXToken → Bool
  | .Identifier _ => true
  | .Keyword .True => true
  | .Keyword .False => true
  | .NumberLiteral _ => true
  | .DoubleQuotedStringLiteral _ => true
  | .OpenBracket => true
  | _ => false

/-- The body of `from_reader_with_config` after the comment skip and the
`next()` (stage 1 dispatch followed by stages 2-3). -/
def atomThenTwoThree (fuel : Nat) (flag : Bool) (tk : Tok) (toks : List Tok) :
    PRes (TypeReference × List Tok) :=
  match stageOne fuel tk toks with
  | .error e => .error e
  | .ok (.early r toks2) => .ok (r, toks2)
  | .ok (.atom r toks2) => stageTwoThree fuel flag r toks2

theorem skipCommentsNoComment (tk : Tok) (rest : List Tok)
    (h : tk.tok.isComment = false) : skipComments (tk :: rest) = tk :: rest := by
  obtain ⟨t, sp⟩ := tk
  cases t <;> simp_all [skipComments, TSXToken.isComment]

theorem fromRWCCons (fuel : Nat) (flag : Bool) (tk : Tok) (rest : List Tok)
    (h : tk.tok.isComment = false) :
    TypeReference.fromReaderWithConfig (fuel + 1) (tk :: rest) flag =
      atomThenTwoThree fuel flag tk rest := by
  rw [TypeReference.fromReaderWithConfig, skipCommentsNoComment tk rest h]
  rfl

theorem goodHeadNotComment (k : TSXToken) (h : goodHead k = true) : k.isComment = false := by
  cases k <;> simp_all [goodHead, TSXToken.isComment]

theorem stripASize : ∀ t : TypeReference, sizeOf (stripA t) ≤ sizeOf t
  | .ArrayLiteral t _ => by
      have := stripASize t
      simp [stripA]
      omega
  | .Name _ _ => by simp [stripA]
  | .NamespacedName _ _ _ => by simp [stripA]
  | .NameWithGenericArguments _ _ _ => by simp [stripA]
  | .Union _ => by simp [stripA]
  | .Intersection _ => by simp [stripA]
  | .StringLiteral _ _ => by simp [stripA]
  | .NumberLiteral _ _ => by simp [stripA]
  | .BooleanLiteral _ _ => by simp [stripA]
  | .FunctionLiteral _ _ _ _ => by simp [stripA]
  | .ConstructorLiteral _ _ _ _ => by simp [stripA]
  | .ObjectLiteral _ _ _ => by simp [stripA]
  | .TupleLiteral _ _ _ => by simp [stripA]
  | .TemplateLiteral _ _ => by simp [stripA]
  | .Readonly _ _ => by simp [stripA]
  | .Index _ _ _ => by simp [stripA]
  | .KeyOf _ _ => by simp [stripA]
  | .ParenthesizedReference _ _ => by simp [stripA]
  | .Conditional _ _ _ _ => by simp [stripA]
  | .Decorated _ _ _ => by simp [stripA]
  | .Cursor _ _ => by simp [stripA]

theorem iterArrayShift (k : Nat) (t : TypeReference) :
    iterArray (k + 1) t = .ArrayLiteral (iterArray k t) ⟨0, 0, 0⟩ := by
  induction k generalizing t with
  | zero => rfl
  | succ k ih =>
      show iterArray (k + 1) (.ArrayLiteral t ⟨0, 0, 0⟩) = _
      rw [ih]
      rfl

theorem suffixKindsShift (k : Nat) :
    suffixKindsN k ++ [TSXToken.OpenBracket, TSXToken.CloseBracket] = suffixKindsN (k + 1) := by
  induction k with
  | zero => rfl
  | succ k ih => simp only [suffixKindsN, List.cons_append, ih]

theorem tokensOfArrayDecomp : ∀ t : TypeReference,
    tokensOf t = tokensOf (stripA t) ++ suffixKindsN (depthA t)
  | .ArrayLiteral t p => by
      rw [show tokensOf (.ArrayLiteral t p) = tokensOf t ++ [.OpenBracket, .CloseBracket] from by
        simp [tokensOf]]
      rw [tokensOfArrayDecomp t, List.append_assoc, suffixKindsShift]
      simp [stripA, depthA]
  | .Name _ _ => by simp [stripA, depthA, suffixKindsN]
  | .NamespacedName _ _ _ => by simp [stripA, depthA, suffixKindsN]
  | .NameWithGenericArguments _ _ _ => by simp [stripA, depthA, suffixKindsN]
  | .Union _ => by simp [stripA, depthA, suffixKindsN]
  | .Intersection _ => by simp [stripA, depthA, suffixKindsN]
  | .StringLiteral _ _ => by simp [stripA, depthA, suffixKindsN]
  | .NumberLiteral _ _ => by simp [stripA, depthA, suffixKindsN]
  | .BooleanLiteral _ _ => by simp [stripA, depthA, suffixKindsN]
  | .FunctionLiteral _ _ _ _ => by simp [stripA, depthA, suffixKindsN]
  | .ConstructorLiteral _ _ _ _ => by simp [stripA, depthA, suffixKindsN]
  | .ObjectLiteral _ _ _ => by simp [stripA, depthA, suffixKindsN]
  | .TupleLiteral _ _ _ => by simp [stripA, depthA, suffixKindsN]
  | .TemplateLiteral _ _ => by simp [stripA, depthA, suffixKindsN]
  | .Readonly _ _ => by simp [stripA, depthA, suffixKindsN]
  | .Index _ _ _ => by simp [stripA, depthA, suffixKindsN]
  | .KeyOf _ _ => by simp [stripA, depthA, suffixKindsN]
  | .ParenthesizedReference _ _ => by simp [stripA, depthA, suffixKindsN]
  | .Conditional _ _ _ _ => by simp [stripA, depthA, suffixKindsN]
  | .Decorated _ _ _ => by simp [stripA, depthA, suffixKindsN]
  | .Cursor _ _ => by simp [stripA, depthA, suffixKindsN]
termination_by t => sizeOf t
decreasing_by all_goals (simp_wf <;> omega)

theorem mapAppendSplit (l : List Tok) (A B : List TSXToken)
    (h : l.map Tok.tok = A ++ B) :
    ∃ la lb, l = la ++ lb ∧ la.map Tok.tok = A ∧ lb.map Tok.tok = B := by
  induction A generalizing l with
  | nil => exact ⟨[], l, rfl, rfl, h⟩
  | cons a A ih =>
      cases l with
      | nil => simp at h
      | cons t l =>
          simp only [List.map_cons, List.cons_append, List.cons.injEq] at h
          obtain ⟨h1, h2⟩ := h
          obtain ⟨la, lb, rfl, hA, hB⟩ := ih l h2
          exact ⟨t :: la, lb, rfl, by simp [h1, hA], hB⟩

theorem contOkPostfixFree (flag : Bool) (l : List TSXToken)
    (h : contOk flag l = true) : postfixFree l = true := by
  cases l with
  | nil => rfl
  | cons k rest => cases k <;> simp_all [contOk, postfixFree]

theorem contOkMono (l : List TSXToken) (h : contOk false l = true) :
    contOk true l = true := by
  cases l with
  | nil => rfl
  | cons k rest => cases k <;> simp_all [contOk]

theorem rtRAtoRT (t : TypeReference) (h : rtArrayInner t = true) :
    rtOk false t = true := by
  cases t with
  | NumberLiteral n p => cases n; simp_all [rtOk, rtArrayInner]
  | TupleLiteral ms i p => cases ms <;> simp_all [rtOk, rtArrayInner]
  | _ => simp_all [rtOk, rtArrayInner]

theorem rtTrueRA (t : TypeReference) (h : rtOk true t = true)
    (hg : isGenericRoot t = false) : rtArrayInner t = true := by
  cases t with
  | NumberLiteral n p => cases n; simp_all [rtOk, rtArrayInner]
  | TupleLiteral ms i p => cases ms <;> simp_all [rtOk, rtArrayInner]
  | Union ms =>
      cases ms with
      | nil => simp_all [rtOk]
      | cons a tl => cases tl <;> simp_all [rtOk]
  | Intersection ms =>
      cases ms with
      | nil => simp_all [rtOk]
      | cons a tl => cases tl <;> simp_all [rtOk]
  | _ => simp_all [rtOk, rtArrayInner, isGenericRoot]

theorem rtStrip : ∀ t : TypeReference, rtArrayInner t = true →
    s1Shape (stripA t) = true ∧ rtArrayInner (stripA t) = true
  | .ArrayLiteral t _ => by
      intro h
      have := rtStrip t (by simpa [rtArrayInner] using h)
      simpa [stripA] using this
  | .Name n p => by intro h; simp_all [stripA, s1Shape]
  | .BooleanLiteral b p => by intro h; simp_all [stripA, s1Shape]
  | .NumberLiteral n p => by intro h; simp_all [stripA, s1Shape]
  | .StringLiteral s p => by intro h; simp_all [stripA, s1Shape]
  | .TupleLiteral ms i p => by intro h; simp_all [stripA, s1Shape]
  | .NamespacedName _ _ _ => by intro h; simp_all [rtArrayInner]
  | .NameWithGenericArguments _ _ _ => by intro h; simp_all [rtArrayInner]
  | .Union _ => by intro h; simp_all [rtArrayInner]
  | .Intersection _ => by intro h; simp_all [rtArrayInner]
  | .FunctionLiteral _ _ _ _ => by intro h; simp_all [rtArrayInner]
  | .ConstructorLiteral _ _ _ _ => by intro h; simp_all [rtArrayInner]
  | .ObjectLiteral _ _ _ => by intro h; simp_all [rtArrayInner]
  | .TemplateLiteral _ _ => by intro h; simp_all [rtArrayInner]
  | .Readonly _ _ => by intro h; simp_all [rtArrayInner]
  | .Index _ _ _ => by intro h; simp_all [rtArrayInner]
  | .KeyOf _ _ => by intro h; simp_all [rtArrayInner]
  | .ParenthesizedReference _ _ => by intro h; simp_all [rtArrayInner]
  | .Conditional _ _ _ _ => by intro h; simp_all [rtArrayInner]
  | .Decorated _ _ _ => by intro h; simp_all [rtArrayInner]
  | .Cursor _ _ => by intro h; simp_all [rtArrayInner]
termination_by t => sizeOf t
decreasing_by all_goals (simp_wf <;> omega)

theorem depthZeroStrip (t : TypeReference) (h : depthA t = 0) : stripA t = t := by
  cases t <;> simp_all [depthA, stripA]

theorem tokensOfHeadGoodRA : ∀ t : TypeReference, rtArrayInner t = true →
    ∃ k l, tokensOf t = k :: l ∧ goodHead k = true
  | .Name n p => by
      intro h
      exact ⟨.Identifier n, [], by simp [tokensOf], rfl⟩
  | .BooleanLiteral b p => by
      intro h
      exact ⟨.Keyword (if b then .True else .False), [], by simp [tokensOf],
        by cases b <;> rfl⟩
  | .NumberLiteral (.Number raw) p => by
      intro h
      exact ⟨.NumberLiteral raw, [], by simp [tokensOf], rfl⟩
  | .StringLiteral s p => by
      intro h
      exact ⟨.DoubleQuotedStringLiteral s, [], by simp [tokensOf], rfl⟩
  | .ArrayLiteral t p => by
      intro h
      obtain ⟨k, l, hk, hg⟩ := tokensOfHeadGoodRA t (by simpa [rtArrayInner] using h)
      exact ⟨k, l ++ [.OpenBracket, .CloseBracket], by simp [tokensOf, hk], hg⟩
  | .TupleLiteral ms i p => by
      intro h
      exact ⟨.OpenBracket, tokensOfElems ms ++ [.CloseBracket], by simp [tokensOf], rfl⟩
  | .NamespacedName _ _ _ => by intro h; simp_all [rtArrayInner]
  | .NameWithGenericArguments _ _ _ => by intro h; simp_all [rtArrayInner]
  | .Union _ => by intro h; simp_all [rtArrayInner]
  | .Intersection _ => by intro h; simp_all [rtArrayInner]
  | .FunctionLiteral _ _ _ _ => by intro h; simp_all [rtArrayInner]
  | .ConstructorLiteral _ _ _ _ => by intro h; simp_all [rtArrayInner]
  | .ObjectLiteral _ _ _ => by intro h; simp_all [rtArrayInner]
  | .TemplateLiteral _ _ => by intro h; simp_all [rtArrayInner]
  | .Readonly _ _ => by intro h; simp_all [rtArrayInner]
  | .Index _ _ _ => by intro h; simp_all [rtArrayInner]
  | .KeyOf _ _ => by intro h; simp_all [rtArrayInner]
  | .ParenthesizedReference _ _ => by intro h; simp_all [rtArrayInner]
  | .Conditional _ _ _ _ => by intro h; simp_all [rtArrayInner]
  | .Decorated _ _ _ => by intro h; simp_all [rtArrayInner]
  | .Cursor _ _ => by intro h; simp_all [rtArrayInner]
termination_by t => sizeOf t
decreasing_by all_goals (simp_wf <;> omega)

theorem tokensOfHeadGoodRT (flag : Bool) (t : TypeReference) (h : rtOk flag t = true) :
    ∃ k l, tokensOf t = k :: l ∧ goodHead k = true := by
  cases t with
  | Union ms =>
      cases ms with
      | nil => simp_all [rtOk]
      | cons m1 tl =>
          cases tl with
          | nil => simp_all [rtOk]
          | cons m2 rest =>
              simp only [rtOk, Bool.and_eq_true] at h
              obtain ⟨hf, ⟨⟨hg, h1⟩, h2⟩, hr⟩ := h
              obtain ⟨k, l, hk, hgd⟩ :=
                tokensOfHeadGoodRA m1 (rtTrueRA m1 h1 (by simpa using hg))
              exact ⟨k, l ++ tokensOfTail .BitwiseOr (m2 :: rest),
                by simp [tokensOf, hk], hgd⟩
  | Intersection ms =>
      cases ms with
      | nil => simp_all [rtOk]
      | cons m1 tl =>
          cases tl with
          | nil => simp_all [rtOk]
          | cons m2 rest =>
              simp only [rtOk, Bool.and_eq_true] at h
              obtain ⟨hf, ⟨⟨hg, h1⟩, h2⟩, hr⟩ := h
              obtain ⟨k, l, hk, hgd⟩ :=
                tokensOfHeadGoodRA m1 (rtTrueRA m1 h1 (by simpa using hg))
              exact ⟨k, l ++ tokensOfTail .BitwiseAnd (m2 :: rest),
                by simp [tokensOf, hk], hgd⟩
  | NameWithGenericArguments n args p =>
      cases args with
      | nil =>
          exact ⟨.Identifier n, [.OpenChevron, .CloseChevron], by simp [tokensOf], rfl⟩
      | cons a rest =>
          exact ⟨.Identifier n,
            .OpenChevron :: (tokensOf a ++ (tokensOfTail .Comma rest ++ [.CloseChevron])),
            by simp [tokensOf], rfl⟩
  | NumberLiteral num p =>
      cases num with
      | Number raw => exact ⟨.NumberLiteral raw, [], by simp [tokensOf], rfl⟩
  | Name n p => exact ⟨.Identifier n, [], by simp [tokensOf], rfl⟩
  | BooleanLiteral b p =>
      exact ⟨.Keyword (if b then .True else .False), [], by simp [tokensOf],
        by cases b <;> rfl⟩
  | StringLiteral s p =>
      exact ⟨.DoubleQuotedStringLiteral s, [], by simp [tokensOf], rfl⟩
  | ArrayLiteral t p =>
      exact tokensOfHeadGoodRA (.ArrayLiteral t p) (by simpa [rtOk, rtArrayInner] using h)
  | TupleLiteral ms i p =>
      exact ⟨.OpenBracket, tokensOfElems ms ++ [.CloseBracket], by simp [tokensOf], rfl⟩
  | _ => simp_all [rtOk]

theorem tokensOfElemHeadSafe (e : TupleElement) (he : rtElem e = true) :
    ∃ k l, tokensOfElem e = k :: l ∧ k ≠ TSXToken.Colon ∧ k ≠ TSXToken.CloseBrace := by
  cases e with
  | NonSpread name ty =>
      cases name with
      | none =>
          have hty : rtOk false ty = true := by simpa [rtElem] using he
          obtain ⟨k, l, hk, hg⟩ := tokensOfHeadGoodRT false ty hty
          exact ⟨k, l, by simp [tokensOfElem, hk],
            by cases k <;> simp_all [goodHead], by cases k <;> simp_all [goodHead]⟩
      | some n =>
          exact ⟨.Identifier n, .Colon :: tokensOf ty, by simp [tokensOfElem],
            by simp, by simp⟩
  | Spread name ty =>
      cases name with
      | none => exact ⟨.Spread, tokensOf ty, by simp [tokensOfElem], by simp, by simp⟩
      | some n =>
          exact ⟨.Identifier n, .Colon :: .Spread :: tokensOf ty, by simp [tokensOfElem],
            by simp, by simp⟩

theorem tokensOfSndSafe : ∀ (flag : Bool) (t : TypeReference), rtOk flag t = true →
    (∃ a, tokensOf t = [a]) ∨
      (∃ a b l, tokensOf t = a :: b :: l ∧ b ≠ TSXToken.Colon)
  | flag, .Name n p => fun _ => .inl ⟨.Identifier n, by simp [tokensOf]⟩
  | flag, .BooleanLiteral b p => fun _ =>
      .inl ⟨.Keyword (if b then .True else .False), by simp [tokensOf]⟩
  | flag, .NumberLiteral (.Number raw) p => fun _ =>
      .inl ⟨.NumberLiteral raw, by simp [tokensOf]⟩
  | flag, .StringLiteral s p => fun _ =>
      .inl ⟨.DoubleQuotedStringLiteral s, by simp [tokensOf]⟩
  | flag, .Union ms => by
      intro h
      cases ms with
      | nil => simp_all [rtOk]
      | cons m1 tl =>
          cases tl with
          | nil => simp_all [rtOk]
          | cons m2 rest =>
              simp only [rtOk, Bool.and_eq_true] at h
              obtain ⟨hf, ⟨⟨hg, h1⟩, h2⟩, hr⟩ := h
              rcases tokensOfSndSafe true m1 h1 with ⟨a, ha⟩ | ⟨a, b, l, ha, hb⟩
              · exact .inr ⟨a, .BitwiseOr, tokensOf m2 ++ tokensOfTail .BitwiseOr rest,
                  by simp [tokensOf, tokensOfTail, ha], by simp⟩
              · exact .inr ⟨a, b, l ++ tokensOfTail .BitwiseOr (m2 :: rest),
                  by simp [tokensOf, ha], hb⟩
  | flag, .Intersection ms => by
      intro h
      cases ms with
      | nil => simp_all [rtOk]
      | cons m1 tl =>
          cases tl with
          | nil => simp_all [rtOk]
          | cons m2 rest =>
              simp only [rtOk, Bool.and_eq_true] at h
              obtain ⟨hf, ⟨⟨hg, h1⟩, h2⟩, hr⟩ := h
              rcases tokensOfSndSafe true m1 h1 with ⟨a, ha⟩ | ⟨a, b, l, ha, hb⟩
              · exact .inr ⟨a, .BitwiseAnd, tokensOf m2 ++ tokensOfTail .BitwiseAnd rest,
                  by simp [tokensOf, tokensOfTail, ha], by simp⟩
              · exact .inr ⟨a, b, l ++ tokensOfTail .BitwiseAnd (m2 :: rest),
                  by simp [tokensOf, ha], hb⟩
  | flag, .NameWithGenericArguments n args p => by
      intro h
      cases args with
      | nil =>
          exact .inr ⟨.Identifier n, .OpenChevron, [.CloseChevron],
            by simp [tokensOf], by simp⟩
      | cons a rest =>
          exact .inr ⟨.Identifier n, .OpenChevron,
            tokensOf a ++ (tokensOfTail .Comma rest ++ [.CloseChevron]),
            by simp [tokensOf], by simp⟩
  | flag, .ArrayLiteral t p => by
      intro h
      have hra : rtArrayInner t = true := by simpa [rtOk] using h
      rcases tokensOfSndSafe false t (rtRAtoRT t hra) with ⟨a, ha⟩ | ⟨a, b, l, ha, hb⟩
      · exact .inr ⟨a, .OpenBracket, [.CloseBracket], by simp [tokensOf, ha], by simp⟩
      · exact .inr ⟨a, b, l ++ [.OpenBracket, .CloseBracket],
          by simp [tokensOf, ha], hb⟩
  | flag, .TupleLiteral ms i p => by
      intro h
      cases ms with
      | nil => simp_all [rtOk]
      | cons e rest =>
          have he : rtElem e = true := by
            cases rest <;> simp_all [rtOk]
          obtain ⟨k, l, hk, hcol, _⟩ := tokensOfElemHeadSafe e he
          cases rest with
          | nil =>
              exact .inr ⟨.OpenBracket, k, l ++ [.CloseBracket],
                by simp [tokensOf, tokensOfElems, hk], hcol⟩
          | cons e2 rest2 =>
              exact .inr ⟨.OpenBracket, k,
                (l ++ .Comma :: tokensOfElems (e2 :: rest2)) ++ [.CloseBracket],
                by simp [tokensOf, tokensOfElems, hk], hcol⟩
  | flag, .NamespacedName _ _ _ => by intro h; simp_all [rtOk]
  | flag, .FunctionLiteral _ _ _ _ => by intro h; simp_all [rtOk]
  | flag, .ConstructorLiteral _ _ _ _ => by intro h; simp_all [rtOk]
  | flag, .ObjectLiteral _ _ _ => by intro h; simp_all [rtOk]
  | flag, .TemplateLiteral _ _ => by intro h; simp_all [rtOk]
  | flag, .Readonly _ _ => by intro h; simp_all [rtOk]
  | flag, .Index _ _ _ => by intro h; simp_all [rtOk]
  | flag, .KeyOf _ _ => by intro h; simp_all [rtOk]
  | flag, .ParenthesizedReference _ _ => by intro h; simp_all [rtOk]
  | flag, .Conditional _ _ _ _ => by intro h; simp_all [rtOk]
  | flag, .Decorated _ _ _ => by intro h; simp_all [rtOk]
  | flag, .Cursor _ _ => by intro h; simp_all [rtOk]
termination_by _ t => sizeOf t
decreasing_by all_goals (simp_wf <;> omega)
